import Mathlib

/-!
Verification of the relocation linker (`link.rs`) and the C-API export-type
wrappers (`export.rs`) of the wasmer repository, via a shallow embedding.

Machine integers are modelled as `Nat` with explicit `% 2^w` where the Rust
code truncates; fallible code (Rust `panic!`-free paths vs aborts) is
modelled with `Option`.
-/

namespace Wasmer

/-! ## Byte-addressed memory

The Rust code patches executable memory through raw pointers with
`read_unaligned` / `write_unaligned` on `u32`/`u64`; we model memory as a
byte map with little-endian multi-byte accesses. -/

def Mem : Type := Nat → Nat

def readByte (m : Mem) (a : Nat) : Nat := m a % 256

def writeByte (m : Mem) (a v : Nat) : Mem :=
  fun x => if x = a then v % 256 else m x

def read_u32 (m : Mem) (a : Nat) : Nat :=
  readByte m a + 256 * readByte m (a + 1) + 65536 * readByte m (a + 2) +
    16777216 * readByte m (a + 3)

def write_u32 (m : Mem) (a v : Nat) : Mem :=
  writeByte (writeByte (writeByte (writeByte m a v) (a + 1) (v / 256))
    (a + 2) (v / 65536)) (a + 3) (v / 16777216)

def read_u64 (m : Mem) (a : Nat) : Nat :=
  readByte m a + 256 * readByte m (a + 1) + 65536 * readByte m (a + 2) +
    16777216 * readByte m (a + 3) + 4294967296 * readByte m (a + 4) +
    1099511627776 * readByte m (a + 5) + 281474976710656 * readByte m (a + 6) +
    72057594037927936 * readByte m (a + 7)

def write_u64 (m : Mem) (a v : Nat) : Mem :=
  writeByte (writeByte (writeByte (writeByte (writeByte (writeByte (writeByte
    (writeByte m a v) (a + 1) (v / 256)) (a + 2) (v / 65536))
    (a + 3) (v / 16777216)) (a + 4) (v / 4294967296))
    (a + 5) (v / 1099511627776)) (a + 6) (v / 281474976710656))
    (a + 7) (v / 72057594037927936)

/-! ## Integer-cast helpers (Rust `as i64`, `as u32`, arithmetic shift) -/

def i64_of_u64 (v : Nat) : Int :=
  if v < 9223372036854775808 then (v : Int) else (v : Int) - 18446744073709551616

def u32_of_int (d : Int) : Nat := (d % 4294967296).toNat

def int_asr (d : Int) (k : Nat) : Int := Int.fdiv d (2 ^ k)

/-! ## Data model of `link.rs`

`RelocationKind` lists the kinds matched by `apply_relocation`; the
`Unsupported` constructor stands for every other variant of the source enum,
all of which hit the wildcard abort arm. -/

inductive RelocationKind where
  | Abs8
  | X86PCRel4
  | X86PCRel8
  | X86CallPCRel4
  | Arm64Call
  | Arm64Movw0
  | Arm64Movw1
  | Arm64Movw2
  | Arm64Movw3
  | RiscvPCRelHi20
  | RiscvPCRelLo12I
  | RiscvCall
  | LArchAbsHi20
  | LArchAbsLo12
  | LArchAbs64Lo20
  | LArchAbs64Hi12
  | LArchPCAlaHi20
  | LArchPCAlaLo12
  | LArchPCAla64Lo20
  | LArchPCAla64Hi12
  | LArchCall36
  | Aarch64AdrPrelPgHi21
  | Aarch64AdrPrelLo21
  | Aarch64AddAbsLo12Nc
  | Aarch64Ldst128AbsLo12Nc
  | Aarch64Ldst64AbsLo12Nc
  | Unsupported
  deriving DecidableEq

inductive RelocationTarget where
  | LocalFunc (index : Nat)
  | LibCall (libcall : Nat)
  | CustomSection (index : Nat)
  deriving DecidableEq

/-- A relocation record (`RelocationLike`).  `delta` abstracts the
kind-specific second component of `for_address`: the record combines its
addend and offset with the body base and resolved target; the linker treats
it as opaque, so it is carried as an arbitrary function of those two
arguments. -/
structure Relocation where
  kind : RelocationKind
  reloc_target : RelocationTarget
  offset : Nat
  delta : Nat → Nat → Nat

/-- Modelled from the spec: `RelocationLike::for_address` (its implementation
is not among the analysed sources) returns `(write_address, value)` with
`write_address = body + offset` and a kind-specific 64-bit second field. -/
def for_address (r : Relocation) (body target : Nat) : Nat × Nat :=
  (body + r.offset, r.delta body target % 18446744073709551616)

/-- Modelled from the spec: `get_libcall_trampoline` (not among the analysed
sources) returns the address of the `libcall`-th entry of the trampoline
section: `trampoline_section_base + libcall * trampoline_entry_length`. -/
def get_libcall_trampoline (libcall base len : Nat) : Nat :=
  base + libcall * len

/-- The resolved target address computed at the top of `apply_relocation`.
`function_pointer` abstracts `wasmer_vm::libcalls::function_pointer` (the
libcall registry, not among the analysed sources). -/
def target_func_address (r : Relocation)
    (allocated_functions allocated_sections function_pointer : Nat → Nat)
    (libcall_trampolines libcall_trampoline_len : Nat) : Nat :=
  match r.reloc_target with
  | .LocalFunc index => allocated_functions index
  | .LibCall libcall =>
      if r.kind = RelocationKind.Abs8 ∨ r.kind = RelocationKind.X86PCRel8 then
        function_pointer libcall
      else
        get_libcall_trampoline libcall (allocated_sections libcall_trampolines)
          libcall_trampoline_len
  | .CustomSection custom_section => allocated_sections custom_section

/-- The `riscv_pcrel_hi20s: HashMap<usize, u32>` pairing table, as an
association list whose most recent insertion wins. -/
def hashmap_get : List (Nat × Nat) → Nat → Option Nat
  | [], _ => none
  | (k, v) :: rest, key => if k = key then some v else hashmap_get rest key

structure LinkState where
  mem : Mem
  riscv_pcrel_hi20s : List (Nat × Nat)

/-- `apply_relocation` from `link.rs`.  A `panic!`/failed `assert!`/failed
`expect` is `none`. -/
def apply_relocation (body : Nat) (r : Relocation)
    (allocated_functions allocated_sections function_pointer : Nat → Nat)
    (libcall_trampolines libcall_trampoline_len : Nat)
    (st : LinkState) : Option LinkState :=
  let tfa := target_func_address r allocated_functions allocated_sections
    function_pointer libcall_trampolines libcall_trampoline_len
  match r.kind with
  | .Abs8 =>
      let (reloc_address, reloc_delta) := for_address r body tfa
      some ⟨write_u64 st.mem reloc_address reloc_delta, st.riscv_pcrel_hi20s⟩
  | .X86PCRel4 =>
      let (reloc_address, reloc_delta) := for_address r body tfa
      some ⟨write_u32 st.mem reloc_address reloc_delta, st.riscv_pcrel_hi20s⟩
  | .X86PCRel8 =>
      let (reloc_address, reloc_delta) := for_address r body tfa
      some ⟨write_u64 st.mem reloc_address reloc_delta, st.riscv_pcrel_hi20s⟩
  | .X86CallPCRel4 =>
      let (reloc_address, reloc_delta) := for_address r body tfa
      some ⟨write_u32 st.mem reloc_address reloc_delta, st.riscv_pcrel_hi20s⟩
  | .Arm64Call =>
      let (reloc_address, reloc_delta) := for_address r body tfa
      if (i64_of_u64 reloc_delta).natAbs ≥ 0x10000000 then none
      else
        some ⟨write_u32 st.mem reloc_address
          ((reloc_delta / 4 % 4294967296 &&& 0x3ffffff) |||
            (read_u32 st.mem reloc_address &&& 0xfc000000)),
          st.riscv_pcrel_hi20s⟩
  | .Arm64Movw0 =>
      let (reloc_address, reloc_delta) := for_address r body tfa
      some ⟨write_u32 st.mem reloc_address
        (((reloc_delta &&& 0xffff) <<< 5) ||| read_u32 st.mem reloc_address),
        st.riscv_pcrel_hi20s⟩
  | .Arm64Movw1 =>
      let (reloc_address, reloc_delta) := for_address r body tfa
      some ⟨write_u32 st.mem reloc_address
        ((((reloc_delta >>> 16) &&& 0xffff) <<< 5) ||| read_u32 st.mem reloc_address),
        st.riscv_pcrel_hi20s⟩
  | .Arm64Movw2 =>
      let (reloc_address, reloc_delta) := for_address r body tfa
      some ⟨write_u32 st.mem reloc_address
        ((((reloc_delta >>> 32) &&& 0xffff) <<< 5) ||| read_u32 st.mem reloc_address),
        st.riscv_pcrel_hi20s⟩
  | .Arm64Movw3 =>
      let (reloc_address, reloc_delta) := for_address r body tfa
      some ⟨write_u32 st.mem reloc_address
        ((((reloc_delta >>> 48) &&& 0xffff) <<< 5) ||| read_u32 st.mem reloc_address),
        st.riscv_pcrel_hi20s⟩
  | .RiscvPCRelHi20 =>
      let (reloc_address, reloc_delta) := for_address r body tfa
      some ⟨write_u32 st.mem reloc_address
        ((((reloc_delta + 0x800) % 18446744073709551616 &&& 0xfffff000)) |||
          read_u32 st.mem reloc_address),
        (reloc_address, reloc_delta % 4294967296) :: st.riscv_pcrel_hi20s⟩
  | .RiscvPCRelLo12I =>
      let (reloc_address, reloc_abs) := for_address r body tfa
      match hashmap_get st.riscv_pcrel_hi20s reloc_abs with
      | none => none
      | some hi20 =>
          some ⟨write_u32 st.mem reloc_address
            (((hi20 &&& 0xfff) <<< 20) ||| read_u32 st.mem reloc_address),
            st.riscv_pcrel_hi20s⟩
  | .RiscvCall =>
      let (reloc_address, reloc_delta) := for_address r body tfa
      some ⟨write_u64 st.mem reloc_address
        (((reloc_delta &&& 0xfff) <<< 52) |||
          ((reloc_delta + 0x800) % 18446744073709551616 &&& 0xfffff000) |||
          read_u64 st.mem reloc_address),
        st.riscv_pcrel_hi20s⟩
  | .LArchAbsHi20 | .LArchPCAlaHi20 =>
      let (reloc_address, reloc_abs) := for_address r body tfa
      some ⟨write_u32 st.mem reloc_address
        ((((reloc_abs >>> 12) &&& 0xfffff) <<< 5) ||| read_u32 st.mem reloc_address),
        st.riscv_pcrel_hi20s⟩
  | .LArchAbsLo12 | .LArchPCAlaLo12 =>
      let (reloc_address, reloc_abs) := for_address r body tfa
      some ⟨write_u32 st.mem reloc_address
        (((reloc_abs &&& 0xfff) <<< 10) ||| read_u32 st.mem reloc_address),
        st.riscv_pcrel_hi20s⟩
  | .LArchAbs64Hi12 | .LArchPCAla64Hi12 =>
      let (reloc_address, reloc_abs) := for_address r body tfa
      some ⟨write_u32 st.mem reloc_address
        ((((reloc_abs >>> 52) &&& 0xfff) <<< 10) ||| read_u32 st.mem reloc_address),
        st.riscv_pcrel_hi20s⟩
  | .LArchAbs64Lo20 | .LArchPCAla64Lo20 =>
      let (reloc_address, reloc_abs) := for_address r body tfa
      some ⟨write_u32 st.mem reloc_address
        ((((reloc_abs >>> 32) &&& 0xfffff) <<< 5) ||| read_u32 st.mem reloc_address),
        st.riscv_pcrel_hi20s⟩
  | .LArchCall36 =>
      let (reloc_address, reloc_delta) := for_address r body tfa
      let mem1 := write_u32 st.mem reloc_address
        ((((reloc_delta >>> 18) &&& 0xfffff) <<< 5) ||| read_u32 st.mem reloc_address)
      some ⟨write_u32 mem1 (reloc_address + 4)
        ((((reloc_delta >>> 2) &&& 0xffff) <<< 10) ||| read_u32 mem1 (reloc_address + 4)),
        st.riscv_pcrel_hi20s⟩
  | .Aarch64AdrPrelPgHi21 =>
      let (reloc_address, d) := for_address r body tfa
      let delta := i64_of_u64 d
      if -(4294967296 : Int) ≤ delta ∧ delta < 4294967296 then
        let op := read_u32 st.mem reloc_address
        let delta12 := int_asr delta 12
        let immlo := (u32_of_int delta12 &&& 0b11) <<< 29
        let immhi := ((u32_of_int delta12 >>> 2) &&& 0x7ffff) <<< 5
        let mask := 0xffffffff ^^^ ((0x7ffff <<< 5) ||| (0b11 <<< 29))
        some ⟨write_u32 st.mem reloc_address ((op &&& mask) ||| immlo ||| immhi),
          st.riscv_pcrel_hi20s⟩
      else none
  | .Aarch64AdrPrelLo21 =>
      let (reloc_address, d) := for_address r body tfa
      let delta := i64_of_u64 d
      if -(1048576 : Int) ≤ delta ∧ delta < 1048576 then
        let op := read_u32 st.mem reloc_address
        let immlo := (u32_of_int delta &&& 0b11) <<< 29
        let immhi := ((u32_of_int delta >>> 2) &&& 0x7ffff) <<< 5
        let mask := 0xffffffff ^^^ ((0x7ffff <<< 5) ||| (0b11 <<< 29))
        some ⟨write_u32 st.mem reloc_address ((op &&& mask) ||| immlo ||| immhi),
          st.riscv_pcrel_hi20s⟩
      else none
  | .Aarch64AddAbsLo12Nc =>
      let (reloc_address, d) := for_address r body tfa
      let delta := i64_of_u64 d
      let op := read_u32 st.mem reloc_address
      let imm := (u32_of_int delta &&& 0xfff) <<< 10
      let mask := 0xffffffff ^^^ (0xfff <<< 10)
      some ⟨write_u32 st.mem reloc_address ((op &&& mask) ||| imm),
        st.riscv_pcrel_hi20s⟩
  | .Aarch64Ldst128AbsLo12Nc =>
      let (reloc_address, reloc_delta) := for_address r body tfa
      some ⟨write_u32 st.mem reloc_address
        ((((reloc_delta % 4294967296 &&& 0xfff) >>> 4) <<< 10) |||
          (read_u32 st.mem reloc_address &&& 0xffc003ff)),
        st.riscv_pcrel_hi20s⟩
  | .Aarch64Ldst64AbsLo12Nc =>
      let (reloc_address, reloc_delta) := for_address r body tfa
      some ⟨write_u32 st.mem reloc_address
        ((((reloc_delta % 4294967296 &&& 0xfff) >>> 3) <<< 10) |||
          (read_u32 st.mem reloc_address &&& 0xffc003ff)),
        st.riscv_pcrel_hi20s⟩
  | .Unsupported => none

/-- One body's relocation records, applied in order. -/
def apply_relocs (body : Nat) (rs : List Relocation)
    (allocated_functions allocated_sections function_pointer : Nat → Nat)
    (libcall_trampolines libcall_trampoline_len : Nat)
    (st : LinkState) : Option LinkState :=
  match rs with
  | [] => some st
  | r :: rest =>
      match apply_relocation body r allocated_functions allocated_sections
          function_pointer libcall_trampolines libcall_trampoline_len st with
      | none => none
      | some st' =>
          apply_relocs body rest allocated_functions allocated_sections
            function_pointer libcall_trampolines libcall_trampoline_len st'

/-- One relocation stream (list of `(index, records)` pairs); `bases`
resolves an index to its body base address. -/
def link_stream (bases : Nat → Nat) (streams : List (Nat × List Relocation))
    (allocated_functions allocated_sections function_pointer : Nat → Nat)
    (libcall_trampolines libcall_trampoline_len : Nat)
    (st : LinkState) : Option LinkState :=
  match streams with
  | [] => some st
  | (i, rs) :: rest =>
      match apply_relocs (bases i) rs allocated_functions allocated_sections
          function_pointer libcall_trampolines libcall_trampoline_len st with
      | none => none
      | some st' =>
          link_stream bases rest allocated_functions allocated_sections
            function_pointer libcall_trampolines libcall_trampoline_len st'

/-- `link_module` from `link.rs`: fresh pairing table, section pass, then
function pass. -/
def link_module (allocated_functions : Nat → Nat)
    (function_relocations : List (Nat × List Relocation))
    (allocated_sections : Nat → Nat)
    (section_relocations : List (Nat × List Relocation))
    (function_pointer : Nat → Nat)
    (libcall_trampolines trampoline_len : Nat)
    (mem : Mem) : Option LinkState :=
  match link_stream allocated_sections section_relocations allocated_functions
      allocated_sections function_pointer libcall_trampolines trampoline_len
      ⟨mem, []⟩ with
  | none => none
  | some st' =>
      link_stream allocated_functions function_relocations allocated_functions
        allocated_sections function_pointer libcall_trampolines trampoline_len st'

/-! ## Sequential reference form of the driver (for the ordering claim) -/

/-- A stream flattened into `(body_base, record)` pairs, in caller order. -/
def flatten_stream (bases : Nat → Nat) :
    List (Nat × List Relocation) → List (Nat × Relocation)
  | [] => []
  | (i, rs) :: rest => rs.map (fun r => (bases i, r)) ++ flatten_stream bases rest

/-- Applies tagged `(body, record)` pairs in list order. -/
def run_tagged (allocated_functions allocated_sections function_pointer : Nat → Nat)
    (libcall_trampolines libcall_trampoline_len : Nat) :
    List (Nat × Relocation) → LinkState → Option LinkState
  | [], st => some st
  | (body, r) :: rest, st =>
      match apply_relocation body r allocated_functions allocated_sections
          function_pointer libcall_trampolines libcall_trampoline_len st with
      | none => none
      | some st' =>
          run_tagged allocated_functions allocated_sections function_pointer
            libcall_trampolines libcall_trampoline_len rest st'

/-! ## Mask bookkeeping for the frame-effect claim -/

/-- Modelled from the spec: the documented immediate-field mask of each
read-modify-write kind, expressed through its complement; bits under the
complement must survive patching.  Store kinds (`Abs8`, `X86PCRel4`,
`X86PCRel8`, `X86CallPCRel4`) and unsupported kinds carry no obligation. -/
def mask_preserved (k : RelocationKind) (ra : Nat) (mold mnew : Mem) : Prop :=
  match k with
  | .Abs8 | .X86PCRel4 | .X86PCRel8 | .X86CallPCRel4 | .Unsupported => True
  | .Arm64Call =>
      read_u32 mnew ra &&& 0xfc000000 = read_u32 mold ra &&& 0xfc000000
  | .Arm64Movw0 | .Arm64Movw1 | .Arm64Movw2 | .Arm64Movw3 =>
      read_u32 mnew ra &&& 0xffe0001f = read_u32 mold ra &&& 0xffe0001f
  | .RiscvPCRelHi20 =>
      read_u32 mnew ra &&& 0xfff = read_u32 mold ra &&& 0xfff
  | .RiscvPCRelLo12I =>
      read_u32 mnew ra &&& 0xfffff = read_u32 mold ra &&& 0xfffff
  | .RiscvCall =>
      read_u64 mnew ra &&& 0xfffff00000fff = read_u64 mold ra &&& 0xfffff00000fff
  | .LArchAbsHi20 | .LArchPCAlaHi20 | .LArchAbs64Lo20 | .LArchPCAla64Lo20 =>
      read_u32 mnew ra &&& 0xfe00001f = read_u32 mold ra &&& 0xfe00001f
  | .LArchAbsLo12 | .LArchPCAlaLo12 | .LArchAbs64Hi12 | .LArchPCAla64Hi12
  | .Aarch64AddAbsLo12Nc | .Aarch64Ldst128AbsLo12Nc | .Aarch64Ldst64AbsLo12Nc =>
      read_u32 mnew ra &&& 0xffc003ff = read_u32 mold ra &&& 0xffc003ff
  | .LArchCall36 =>
      read_u32 mnew ra &&& 0xfe00001f = read_u32 mold ra &&& 0xfe00001f ∧
      read_u32 mnew (ra + 4) &&& 0xfc0003ff = read_u32 mold (ra + 4) &&& 0xfc0003ff
  | .Aarch64AdrPrelPgHi21 | .Aarch64AdrPrelLo21 =>
      read_u32 mnew ra &&& 0x9f00001f = read_u32 mold ra &&& 0x9f00001f

/-! ## Per-byte affine transformations (for the idempotence claim) -/

/-- Every encoder arm rewrites each byte it touches as a function
`v ↦ (v &&& a) ||| c` of that byte alone; such maps compose and are
idempotent. -/
def byte_affine (f : Mem → Mem) : Prop :=
  ∀ p : Nat, (∀ m, f m p = m p) ∨
    (∃ a c, a < 256 ∧ c < 256 ∧ ∀ m, f m p = ((m p % 256) &&& a) ||| c)

/-- No record of the stream is a `RiscvPCRelLo12I`. -/
def stream_no_lo12 (s : List (Nat × List Relocation)) : Prop :=
  ∀ pr ∈ s, ∀ r ∈ pr.2, r.kind ≠ RelocationKind.RiscvPCRelLo12I

/-! ## Data model of `export.rs` (C-API export types)

Raw `NonNull` pointers are modelled as numeric identifiers; dropping a value
is modelled by the list of pointers it deallocates. -/

structure wasm_exporttype_t where
  name : Nat
  xtype : Nat
  owns_fields : Bool
  deriving DecidableEq

def wasm_exporttype_new (name xtype : Nat) : wasm_exporttype_t :=
  ⟨name, xtype, false⟩

def wasm_exporttype_name (et : wasm_exporttype_t) : Nat := et.name

def wasm_exporttype_type (et : wasm_exporttype_t) : Nat := et.xtype

/-- The pointers deallocated by `Drop for wasm_exporttype_t`. -/
def exporttype_drop_frees (et : wasm_exporttype_t) : List Nat :=
  if et.owns_fields then [et.name, et.xtype] else []

/-- `wasm_exporttype_delete` consumes the box (dropping its contents when
present); the result is the list of field pointers deallocated. -/
def wasm_exporttype_delete (et : Option wasm_exporttype_t) : List Nat :=
  match et with
  | none => []
  | some e => exporttype_drop_frees e

/-- `From<&ExportType> for wasm_exporttype_t`: freshly leaked boxes for the
name and the extern type, with `owns_fields: true`. -/
def wasm_exporttype_from_export (name xtype : Nat) : wasm_exporttype_t :=
  ⟨name, xtype, true⟩

/-! ## Generic bit-manipulation lemmas -/

theorem land_window (x a b : Nat) :
    x &&& (2 ^ a - 1) * 2 ^ b = x / 2 ^ b % 2 ^ a * 2 ^ b :=
  Nat.eq_of_testBit_eq fun i => by
  rw [← Nat.shiftLeft_eq (2 ^ a - 1) b, ← Nat.shiftRight_eq_div_pow x b,
    ← Nat.shiftLeft_eq (x >>> b % 2 ^ a) b]
  simp only [Nat.testBit_and, Nat.testBit_shiftLeft, Nat.testBit_two_pow_sub_one,
    Nat.testBit_mod_two_pow, Nat.testBit_shiftRight]
  by_cases hb : b ≤ i
  · have hi : b + (i - b) = i := by omega
    simp only [hb, decide_True, Bool.true_and, hi]
    cases x.testBit i <;> simp
  · simp [hb]

theorem land_mod_two_pow_of_lt {c m : Nat} (hc : c < 2 ^ m) (x : Nat) :
    x % 2 ^ m &&& c = x &&& c :=
  Nat.eq_of_testBit_eq fun i => by
  simp only [Nat.testBit_and, Nat.testBit_mod_two_pow]
  by_cases hi : i < m
  · simp [hi]
  · have : c.testBit i = false := Nat.testBit_lt_two_pow (by
      calc c < 2 ^ m := hc
        _ ≤ 2 ^ i := Nat.pow_le_pow_right (by omega) (by omega))
    simp [this]

theorem lor_mod_two_pow (x y n : Nat) :
    (x ||| y) % 2 ^ n = x % 2 ^ n ||| y % 2 ^ n :=
  Nat.eq_of_testBit_eq fun i => by
  simp only [Nat.testBit_mod_two_pow, Nat.testBit_or]
  by_cases hi : i < n <;> simp [hi]

theorem lor_div_two_pow (x y n : Nat) :
    (x ||| y) / 2 ^ n = x / 2 ^ n ||| y / 2 ^ n :=
  Nat.eq_of_testBit_eq fun i => by
  rw [← Nat.shiftRight_eq_div_pow, ← Nat.shiftRight_eq_div_pow,
    ← Nat.shiftRight_eq_div_pow]
  simp [Nat.testBit_shiftRight, Nat.testBit_or]

theorem land_mod_two_pow (x y n : Nat) :
    (x &&& y) % 2 ^ n = x % 2 ^ n &&& y % 2 ^ n :=
  Nat.eq_of_testBit_eq fun i => by
  simp only [Nat.testBit_mod_two_pow, Nat.testBit_and]
  by_cases hi : i < n <;> simp [hi]

theorem land_div_two_pow (x y n : Nat) :
    (x &&& y) / 2 ^ n = x / 2 ^ n &&& y / 2 ^ n :=
  Nat.eq_of_testBit_eq fun i => by
  rw [← Nat.shiftRight_eq_div_pow, ← Nat.shiftRight_eq_div_pow,
    ← Nat.shiftRight_eq_div_pow]
  simp [Nat.testBit_shiftRight, Nat.testBit_and]

theorem window_land_eq_zero {v a b c : Nat} (hv : v < 2 ^ a)
    (hc : (2 ^ a - 1) * 2 ^ b &&& c = 0) : v * 2 ^ b &&& c = 0 := by
  have hw : v * 2 ^ b &&& (2 ^ a - 1) * 2 ^ b = v * 2 ^ b := by
    rw [land_window, Nat.mul_div_cancel _ (Nat.two_pow_pos b), Nat.mod_eq_of_lt hv]
  calc v * 2 ^ b &&& c = (v * 2 ^ b &&& (2 ^ a - 1) * 2 ^ b) &&& c := by rw [hw]
    _ = v * 2 ^ b &&& ((2 ^ a - 1) * 2 ^ b &&& c) := Nat.and_assoc _ _ _
    _ = 0 := by rw [hc, Nat.and_zero]

theorem shl_land_eq_zero (a b : Nat) {v c : Nat} (hv : v < 2 ^ a)
    (hc : (2 ^ a - 1) * 2 ^ b &&& c = 0) : v <<< b &&& c = 0 := by
  rw [Nat.shiftLeft_eq]
  exact window_land_eq_zero hv hc

theorem masked_land_eq_zero (mask c : Nat) (h : mask &&& c = 0) (x : Nat) :
    (x &&& mask) &&& c = 0 := by
  rw [Nat.and_assoc, h, Nat.and_zero]

theorem absorb_lor (c a : Nat) : (c &&& a) ||| c = c :=
  Nat.eq_of_testBit_eq fun i => by
  simp only [Nat.testBit_or, Nat.testBit_and]
  cases c.testBit i <;> cases a.testBit i <;> rfl

/-! ## Memory-access lemmas -/

theorem writeByte_self (m : Mem) (a v : Nat) : writeByte m a v a = v % 256 := by
  simp [writeByte]

theorem writeByte_ne (m : Mem) (a v x : Nat) (h : x ≠ a) :
    writeByte m a v x = m x := by
  simp [writeByte, h]

theorem write_u32_outside (m : Mem) (a v x : Nat) (h : x < a ∨ a + 4 ≤ x) :
    write_u32 m a v x = m x := by
  simp only [write_u32, writeByte]
  split_ifs <;> omega

theorem write_u64_outside (m : Mem) (a v x : Nat) (h : x < a ∨ a + 8 ≤ x) :
    write_u64 m a v x = m x := by
  simp only [write_u64, writeByte]
  split_ifs <;> omega

theorem write_u32_byte0 (m : Mem) (a v : Nat) : write_u32 m a v a = v % 256 := by
  simp only [write_u32, writeByte]
  split_ifs <;> omega

theorem write_u32_byte1 (m : Mem) (a v : Nat) :
    write_u32 m a v (a + 1) = v / 256 % 256 := by
  simp only [write_u32, writeByte]
  split_ifs <;> omega

theorem write_u32_byte2 (m : Mem) (a v : Nat) :
    write_u32 m a v (a + 2) = v / 65536 % 256 := by
  simp only [write_u32, writeByte]
  split_ifs <;> omega

theorem write_u32_byte3 (m : Mem) (a v : Nat) :
    write_u32 m a v (a + 3) = v / 16777216 % 256 := by
  simp only [write_u32, writeByte]
  split_ifs <;> omega

theorem write_u64_byte (m : Mem) (a v k : Nat) (hk : k < 8) :
    write_u64 m a v (a + k) = v / 256 ^ k % 256 := by
  interval_cases k <;> (norm_num; simp only [write_u64, writeByte]; split_ifs <;> omega)

theorem read_u32_write_u32 (m : Mem) (a v : Nat) :
    read_u32 (write_u32 m a v) a = v % 4294967296 := by
  unfold read_u32 readByte
  rw [write_u32_byte0, write_u32_byte1, write_u32_byte2, write_u32_byte3]
  omega

theorem read_u64_write_u64 (m : Mem) (a v : Nat) :
    read_u64 (write_u64 m a v) a = v % 18446744073709551616 := by
  unfold read_u64 readByte
  have b0 := write_u64_byte m a v 0 (by omega)
  have b1 := write_u64_byte m a v 1 (by omega)
  have b2 := write_u64_byte m a v 2 (by omega)
  have b3 := write_u64_byte m a v 3 (by omega)
  have b4 := write_u64_byte m a v 4 (by omega)
  have b5 := write_u64_byte m a v 5 (by omega)
  have b6 := write_u64_byte m a v 6 (by omega)
  have b7 := write_u64_byte m a v 7 (by omega)
  norm_num at b0 b1 b2 b3 b4 b5 b6 b7
  rw [b0, b1, b2, b3, b4, b5, b6, b7]
  omega

theorem read_u32_write_u32_ne (m : Mem) (a v b : Nat)
    (h : b + 4 ≤ a ∨ a + 4 ≤ b) :
    read_u32 (write_u32 m a v) b = read_u32 m b := by
  unfold read_u32 readByte
  rw [write_u32_outside m a v b (by omega), write_u32_outside m a v (b + 1) (by omega),
    write_u32_outside m a v (b + 2) (by omega),
    write_u32_outside m a v (b + 3) (by omega)]

theorem read_u32_write_u64_ne (m : Mem) (a v b : Nat)
    (h : b + 4 ≤ a ∨ a + 8 ≤ b) :
    read_u32 (write_u64 m a v) b = read_u32 m b := by
  unfold read_u32 readByte
  rw [write_u64_outside m a v b (by omega), write_u64_outside m a v (b + 1) (by omega),
    write_u64_outside m a v (b + 2) (by omega),
    write_u64_outside m a v (b + 3) (by omega)]

theorem read_u64_write_u32_ne (m : Mem) (a v b : Nat)
    (h : b + 8 ≤ a ∨ a + 4 ≤ b) :
    read_u64 (write_u32 m a v) b = read_u64 m b := by
  unfold read_u64 readByte
  rw [write_u32_outside m a v b (by omega), write_u32_outside m a v (b + 1) (by omega),
    write_u32_outside m a v (b + 2) (by omega),
    write_u32_outside m a v (b + 3) (by omega),
    write_u32_outside m a v (b + 4) (by omega),
    write_u32_outside m a v (b + 5) (by omega),
    write_u32_outside m a v (b + 6) (by omega),
    write_u32_outside m a v (b + 7) (by omega)]

theorem read_u32_lt (m : Mem) (a : Nat) : read_u32 m a < 4294967296 := by
  unfold read_u32 readByte
  omega

theorem read_u64_lt (m : Mem) (a : Nat) : read_u64 m a < 18446744073709551616 := by
  unfold read_u64 readByte
  omega

theorem read_u32_byte (m : Mem) (a k : Nat) (hk : k < 4) :
    read_u32 m a / 256 ^ k % 256 = m (a + k) % 256 := by
  unfold read_u32 readByte
  interval_cases k <;> norm_num <;> omega

theorem read_u64_byte (m : Mem) (a k : Nat) (hk : k < 8) :
    read_u64 m a / 256 ^ k % 256 = m (a + k) % 256 := by
  unfold read_u64 readByte
  interval_cases k <;> norm_num <;> omega

theorem state_of_some {x y : LinkState} (h : some x = some y) : x = y :=
  Option.some.inj h

/-! ## Claim C1: libcall target selection -/

/-- C1: for a relocation whose target is `LibCall l`, the resolved target
address passed to the encoder is the libcall's direct implementation address
when the kind is `Abs8` or `X86PCRel8`, and the `l`-th trampoline entry
`trampoline_section_base + l * trampoline_entry_length` otherwise. -/
theorem libcall_target_resolution (r : Relocation) (l : Nat)
    (fns secs fp : Nat → Nat) (lt ltl : Nat)
    (h : r.reloc_target = RelocationTarget.LibCall l) :
    target_func_address r fns secs fp lt ltl =
      if r.kind = RelocationKind.Abs8 ∨ r.kind = RelocationKind.X86PCRel8 then
        fp l
      else secs lt + l * ltl := by
  simp [target_func_address, get_libcall_trampoline, h]

theorem libcall_target_resolution_witness :
    target_func_address
        ⟨RelocationKind.Arm64Call, RelocationTarget.LibCall 7, 0, fun _ _ => 0⟩
        (fun _ => 0) (fun _ => 0xc000) (fun _ => 0xdddd) 3 16 = 0xc070 := by
  have h := libcall_target_resolution
    ⟨RelocationKind.Arm64Call, RelocationTarget.LibCall 7, 0, fun _ _ => 0⟩ 7
    (fun _ => 0) (fun _ => 0xc000) (fun _ => 0xdddd) 3 16 rfl
  simpa using h

/-! ## Claim C10: export-type ownership -/

/-- C10: `wasm_exporttype_new` produces a value with `owns_fields = false`
whose `wasm_exporttype_name`/`wasm_exporttype_type` return exactly the given
pointers and whose drop (via `wasm_exporttype_delete`) deallocates nothing,
while the `From<&ExportType>` conversion produces `owns_fields = true` and
frees both fields on drop. -/
theorem exporttype_ownership (name xtype : Nat) :
    (wasm_exporttype_new name xtype).owns_fields = false ∧
    wasm_exporttype_name (wasm_exporttype_new name xtype) = name ∧
    wasm_exporttype_type (wasm_exporttype_new name xtype) = xtype ∧
    wasm_exporttype_delete (some (wasm_exporttype_new name xtype)) = [] ∧
    (wasm_exporttype_from_export name xtype).owns_fields = true ∧
    wasm_exporttype_delete (some (wasm_exporttype_from_export name xtype)) =
      [name, xtype] := by
  refine ⟨rfl, rfl, ?_, ?_, rfl, ?_⟩ <;> rfl

/-! ## Claim C4: LO12_I pairing-table lookup -/

/-- C4: a `RiscvPCRelLo12I` record keys the pairing table by the second
component of `for_address` (the HI20 instruction address carried as its
delta), aborts when the key is absent, and otherwise ORs
`(stored_value &&& 0xfff) <<< 20` into the 32-bit word at its own write
address. -/
theorem lo12i_pairing_lookup (body : Nat) (r : Relocation)
    (fns secs fp : Nat → Nat) (lt ltl : Nat) (st : LinkState)
    (hk : r.kind = RelocationKind.RiscvPCRelLo12I) :
    (hashmap_get st.riscv_pcrel_hi20s
        (for_address r body (target_func_address r fns secs fp lt ltl)).2 = none →
      apply_relocation body r fns secs fp lt ltl st = none) ∧
    (∀ v, hashmap_get st.riscv_pcrel_hi20s
        (for_address r body (target_func_address r fns secs fp lt ltl)).2 = some v →
      apply_relocation body r fns secs fp lt ltl st =
        some ⟨write_u32 st.mem (body + r.offset)
          (((v &&& 0xfff) <<< 20) ||| read_u32 st.mem (body + r.offset)),
          st.riscv_pcrel_hi20s⟩) := by
  rcases r with ⟨k, tgt, off, dfn⟩
  cases hk
  constructor
  · intro h
    simp only [apply_relocation, for_address] at h ⊢
    rw [h]
  · intro v h
    simp only [apply_relocation, for_address] at h ⊢
    rw [h]

theorem lo12i_pairing_lookup_witness :
    apply_relocation 4096
        ⟨RelocationKind.RiscvPCRelLo12I, RelocationTarget.LocalFunc 0, 4,
          fun _ _ => 100⟩
        (fun _ => 0) (fun _ => 0) (fun _ => 0) 0 0
        ⟨fun _ => 0, [(100, 0x87654321)]⟩ =
      some ⟨write_u32 (fun _ => 0) 4100
        (((0x87654321 &&& 0xfff) <<< 20) ||| read_u32 (fun _ => 0) 4100),
        [(100, 0x87654321)]⟩ :=
  (lo12i_pairing_lookup 4096
    ⟨RelocationKind.RiscvPCRelLo12I, RelocationTarget.LocalFunc 0, 4,
      fun _ _ => 100⟩
    (fun _ => 0) (fun _ => 0) (fun _ => 0) 0 0
    ⟨fun _ => 0, [(100, 0x87654321)]⟩ rfl).2 0x87654321 rfl

/-! ## Claim C9: pairing-table frame effect -/

/-- C9: a successful `apply_relocation` changes the pairing table only for a
`RiscvPCRelHi20` record, in which case it prepends the write address mapped
to the low 32 bits of the delta; for every other kind the table is
unchanged. -/
theorem pairing_table_frame (body : Nat) (r : Relocation)
    (fns secs fp : Nat → Nat) (lt ltl : Nat) (st st' : LinkState)
    (h : apply_relocation body r fns secs fp lt ltl st = some st') :
    st'.riscv_pcrel_hi20s =
      if r.kind = RelocationKind.RiscvPCRelHi20 then
        (body + r.offset,
          (for_address r body (target_func_address r fns secs fp lt ltl)).2 %
            4294967296) :: st.riscv_pcrel_hi20s
      else st.riscv_pcrel_hi20s := by
  rcases r with ⟨k, tgt, off, dfn⟩
  cases k <;>
    simp only [apply_relocation, for_address] at h <;>
    first
      | (obtain rfl := state_of_some h; simp [for_address]; done)
      | (simp at h; done)
      | (split at h <;>
          first
            | (simp at h; done)
            | (obtain rfl := state_of_some h; simp [for_address]; done))

theorem pairing_table_frame_witness :
    ((apply_relocation 4096
        ⟨RelocationKind.RiscvPCRelHi20, RelocationTarget.LocalFunc 0, 8,
          fun _ _ => 305419896⟩
        (fun _ => 0) (fun _ => 0) (fun _ => 0) 0 0 ⟨fun _ => 0, []⟩).getD
        ⟨fun _ => 0, []⟩).riscv_pcrel_hi20s = [(4104, 305419896)] := by
  have h := pairing_table_frame 4096
    ⟨RelocationKind.RiscvPCRelHi20, RelocationTarget.LocalFunc 0, 8,
      fun _ _ => 305419896⟩
    (fun _ => 0) (fun _ => 0) (fun _ => 0) 0 0 ⟨fun _ => 0, []⟩
    ((apply_relocation 4096
      ⟨RelocationKind.RiscvPCRelHi20, RelocationTarget.LocalFunc 0, 8,
        fun _ _ => 305419896⟩
      (fun _ => 0) (fun _ => 0) (fun _ => 0) 0 0 ⟨fun _ => 0, []⟩).getD
      ⟨fun _ => 0, []⟩) rfl
  rw [h]
  decide

/-! ## Claim C3: Arm64Call encoding -/

theorem zero_lor (x : Nat) : 0 ||| x = x := by
  rw [Nat.or_comm, Nat.or_zero]

theorem arm64call_bits (rd w : Nat) (hw : w < 4294967296) :
    ((rd / 4 % 4294967296 &&& 67108863) ||| (w &&& 4227858432)) % 4294967296 %
        67108864 = rd / 4 &&& 67108863 ∧
    ((rd / 4 % 4294967296 &&& 67108863) ||| (w &&& 4227858432)) % 4294967296 /
        67108864 = w / 67108864 := by
  have hb := land_window w 6 26
  norm_num at hb
  have ha := land_window (rd / 4 % 4294967296) 26 0
  norm_num at ha
  have ha' := land_window (rd / 4) 26 0
  norm_num at ha'
  rw [ha, ha', hb]
  have hlt : (rd / 4 % 67108864) |||
      (w / 67108864 % 64 * 67108864) < 4294967296 := by
    have h0 := Nat.or_lt_two_pow (x := rd / 4 % 67108864)
      (y := w / 67108864 % 64 * 67108864) (n := 32) (by norm_num; omega)
      (by norm_num; omega)
    norm_num at h0
    exact h0
  rw [Nat.mod_eq_of_lt hlt]
  have hmod := lor_mod_two_pow (rd / 4 % 67108864)
    (w / 67108864 % 64 * 67108864) 26
  norm_num at hmod
  have hdiv := lor_div_two_pow (rd / 4 % 67108864)
    (w / 67108864 % 64 * 67108864) 26
  norm_num at hdiv
  exact ⟨hmod, by rw [hdiv]; omega⟩

/-- C3: for an `Arm64Call` relocation, when the delta's absolute value as a
signed 64-bit integer is at least `2^28` the encoder aborts; otherwise it
stores a 32-bit word whose low 26 bits are `(delta / 4) &&& 0x03FFFFFF`
(unsigned 64-bit division) and whose top 6 bits are the top 6 bits of the
previous word at the write address. -/
theorem arm64call_encoding (body : Nat) (r : Relocation)
    (fns secs fp : Nat → Nat) (lt ltl : Nat) (st : LinkState)
    (hk : r.kind = RelocationKind.Arm64Call) :
    (268435456 ≤ (i64_of_u64
        (for_address r body
          (target_func_address r fns secs fp lt ltl)).2).natAbs →
      apply_relocation body r fns secs fp lt ltl st = none) ∧
    ((i64_of_u64 (for_address r body
        (target_func_address r fns secs fp lt ltl)).2).natAbs < 268435456 →
      ∃ st', apply_relocation body r fns secs fp lt ltl st = some st' ∧
        st'.riscv_pcrel_hi20s = st.riscv_pcrel_hi20s ∧
        read_u32 st'.mem (body + r.offset) % 67108864 =
          (for_address r body
            (target_func_address r fns secs fp lt ltl)).2 / 4 &&& 67108863 ∧
        read_u32 st'.mem (body + r.offset) / 67108864 =
          read_u32 st.mem (body + r.offset) / 67108864) := by
  rcases r with ⟨k, tgt, off, dfn⟩
  cases hk
  constructor
  · intro h1
    simp only [apply_relocation, for_address] at h1 ⊢
    rw [if_pos h1]
  · intro h2
    simp only [for_address] at h2
    refine ⟨⟨write_u32 st.mem (body + off)
      (((dfn body (target_func_address
          ⟨RelocationKind.Arm64Call, tgt, off, dfn⟩ fns secs fp lt ltl) %
          18446744073709551616) / 4 % 4294967296 &&& 0x3ffffff) |||
        (read_u32 st.mem (body + off) &&& 0xfc000000)),
      st.riscv_pcrel_hi20s⟩, ?_, rfl, ?_, ?_⟩
    · simp only [apply_relocation, for_address]
      rw [if_neg (by omega)]
    · simp only [for_address]
      rw [read_u32_write_u32]
      exact (arm64call_bits _ _ (read_u32_lt st.mem (body + off))).1
    · simp only [for_address]
      rw [read_u32_write_u32]
      exact (arm64call_bits _ _ (read_u32_lt st.mem (body + off))).2

theorem arm64call_encoding_witness :
    (268435456 ≤ (i64_of_u64
        (for_address
          ⟨RelocationKind.Arm64Call, RelocationTarget.LocalFunc 0, 0,
            fun _ _ => 0x100⟩ 65536
          (target_func_address
            ⟨RelocationKind.Arm64Call, RelocationTarget.LocalFunc 0, 0,
              fun _ _ => 0x100⟩ (fun _ => 0) (fun _ => 0) (fun _ => 0) 0 0)).2).natAbs →
      False) ∧
    (∃ st', apply_relocation 65536
        ⟨RelocationKind.Arm64Call, RelocationTarget.LocalFunc 0, 0,
          fun _ _ => 0x100⟩
        (fun _ => 0) (fun _ => 0) (fun _ => 0) 0 0 ⟨fun _ => 0x94, []⟩ =
        some st' ∧
      st'.riscv_pcrel_hi20s = ([] : List (Nat × Nat)) ∧
      read_u32 st'.mem 65536 % 67108864 = 0x100 / 4 &&& 67108863 ∧
      read_u32 st'.mem 65536 / 67108864 =
        read_u32 (fun _ => 0x94) 65536 / 67108864) := by
  constructor
  · intro h
    have : ((256 : Nat) < 268435456) := by norm_num
    simp [for_address, i64_of_u64] at h
  · have h := (arm64call_encoding 65536
      ⟨RelocationKind.Arm64Call, RelocationTarget.LocalFunc 0, 0,
        fun _ _ => 0x100⟩
      (fun _ => 0) (fun _ => 0) (fun _ => 0) 0 0 ⟨fun _ => 0x94, []⟩ rfl).2
      (by simp [for_address, i64_of_u64])
    simpa [for_address] using h

/-! ## Mask-preservation helpers -/

theorem write_land32 (m : Mem) (ra v c : Nat) (hc : c < 4294967296) :
    read_u32 (write_u32 m ra v) ra &&& c = v &&& c := by
  rw [read_u32_write_u32]
  have h32 : (4294967296 : Nat) = 2 ^ 32 := by norm_num
  rw [h32] at hc
  rw [h32]
  exact land_mod_two_pow_of_lt hc v

theorem write_land64 (m : Mem) (ra v c : Nat) (hc : c < 18446744073709551616) :
    read_u64 (write_u64 m ra v) ra &&& c = v &&& c := by
  rw [read_u64_write_u64]
  have h64 : (18446744073709551616 : Nat) = 2 ^ 64 := by norm_num
  rw [h64] at hc
  rw [h64]
  exact land_mod_two_pow_of_lt hc v

theorem or_arm_preserved {m : Mem} {ra imm c : Nat} (hc : c < 4294967296)
    (hz : imm &&& c = 0) :
    read_u32 (write_u32 m ra (imm ||| read_u32 m ra)) ra &&& c =
      read_u32 m ra &&& c := by
  rw [write_land32 m ra _ c hc, Nat.and_distrib_right, hz, zero_lor]

/-! ## Claim C5: processing order of link_module -/

theorem run_tagged_append (fns secs fp : Nat → Nat) (lt ltl : Nat)
    (xs ys : List (Nat × Relocation)) (st : LinkState) :
    run_tagged fns secs fp lt ltl (xs ++ ys) st =
      match run_tagged fns secs fp lt ltl xs st with
      | none => none
      | some st' => run_tagged fns secs fp lt ltl ys st' := by
  induction xs generalizing st with
  | nil => rfl
  | cons x rest ih =>
      rcases x with ⟨b, r⟩
      simp only [List.cons_append, run_tagged]
      cases apply_relocation b r fns secs fp lt ltl st with
      | none => rfl
      | some st2 => exact ih st2

theorem apply_relocs_eq_run_tagged (body : Nat) (rs : List Relocation)
    (fns secs fp : Nat → Nat) (lt ltl : Nat) (st : LinkState) :
    apply_relocs body rs fns secs fp lt ltl st =
      run_tagged fns secs fp lt ltl (rs.map (fun r => (body, r))) st := by
  induction rs generalizing st with
  | nil => rfl
  | cons r rest ih =>
      simp only [List.map_cons, apply_relocs, run_tagged]
      cases apply_relocation body r fns secs fp lt ltl st with
      | none => rfl
      | some st2 => exact ih st2

theorem link_stream_eq_run_tagged (bases : Nat → Nat)
    (streams : List (Nat × List Relocation))
    (fns secs fp : Nat → Nat) (lt ltl : Nat) (st : LinkState) :
    link_stream bases streams fns secs fp lt ltl st =
      run_tagged fns secs fp lt ltl (flatten_stream bases streams) st := by
  induction streams generalizing st with
  | nil => rfl
  | cons p rest ih =>
      rcases p with ⟨i, rs⟩
      simp only [flatten_stream, link_stream, run_tagged_append,
        ← apply_relocs_eq_run_tagged]
      cases apply_relocs (bases i) rs fns secs fp lt ltl st with
      | none => rfl
      | some st2 => exact ih st2

/-- C5: `link_module` creates a fresh empty pairing table and is equivalent
to applying, from that fresh state, every section-stream record (tagged with
its section base) and then every function-stream record (tagged with its
function base), in caller order. -/
theorem link_module_order (fns : Nat → Nat) (frs : List (Nat × List Relocation))
    (secs : Nat → Nat) (srs : List (Nat × List Relocation))
    (fp : Nat → Nat) (lt ltl : Nat) (mem : Mem) :
    link_module fns frs secs srs fp lt ltl mem =
      run_tagged fns secs fp lt ltl
        (flatten_stream secs srs ++ flatten_stream fns frs) ⟨mem, []⟩ := by
  rw [run_tagged_append]
  unfold link_module
  simp only [link_stream_eq_run_tagged]

/-! ## Claim C2: HI20/LO12 roundtrip -/

/-- C2 fails as stated: at `A = 0xFFFFF800` the HI20 immediate wraps to `0`
and the LO12 immediate sign-extends to `-0x800`, so the plain integer sum
`(HI20_field <<< 12) + sign_extend(LO12_field, 12)` is `-0x800`, not `A`. -/
theorem hi20_lo12_roundtrip_counterexample :
    ¬ (let z : Nat → Nat := fun _ => 0
       let st0 : LinkState := ⟨fun _ => 0, []⟩
       let r1 : Relocation := ⟨RelocationKind.RiscvPCRelHi20,
         RelocationTarget.LocalFunc 0, 4096, fun _ _ => 4294965248⟩
       let r2 : Relocation := ⟨RelocationKind.RiscvPCRelLo12I,
         RelocationTarget.LocalFunc 0, 4100, fun _ _ => 4096⟩
       let st1 := (apply_relocation 0 r1 z z z 0 0 st0).getD st0
       let st2 := (apply_relocation 0 r2 z z z 0 0 st1).getD st0
       let f20 := read_u32 st2.mem 4096 >>> 12
       let f12 := read_u32 st2.mem 4100 >>> 20
       (f20 : Int) * 4096 +
         (if f12 < 2048 then (f12 : Int) else (f12 : Int) - 4096) =
         4294965248) := by
  decide

/-- C2 (amended): for `A < 2^32`, a `RiscvPCRelHi20` with delta `A` followed
by a `RiscvPCRelLo12I` keyed on the HI20 write address produce fields with
`(HI20_field <<< 12) + sign_extend(LO12_field, 12) ≡ A (mod 2^32)` — the
congruence (the value a 32-bit register materializes), rather than plain
integer equality, which fails for `A ≥ 0xFFFFF800` with low 12 bits
`≥ 0x800`. -/
theorem hi20_lo12_roundtrip (A p q : Nat) (m : Mem)
    (fns secs fp : Nat → Nat) (lt ltl : Nat)
    (hA : A < 4294967296) (hp : p < 18446744073709551616)
    (hpq : p + 4 ≤ q ∨ q + 4 ≤ p)
    (hm1 : read_u32 m p = 0) (hm2 : read_u32 m q = 0)
    (st1 st2 : LinkState)
    (h1 : apply_relocation 0
        ⟨RelocationKind.RiscvPCRelHi20, RelocationTarget.LocalFunc 0, p,
          fun _ _ => A⟩ fns secs fp lt ltl ⟨m, []⟩ = some st1)
    (h2 : apply_relocation 0
        ⟨RelocationKind.RiscvPCRelLo12I, RelocationTarget.LocalFunc 0, q,
          fun _ _ => p⟩ fns secs fp lt ltl st1 = some st2) :
    (((read_u32 st2.mem p >>> 12 : Nat) : Int) * 4096 +
        (if read_u32 st2.mem q >>> 20 < 2048 then
          ((read_u32 st2.mem q >>> 20 : Nat) : Int)
        else ((read_u32 st2.mem q >>> 20 : Nat) : Int) - 4096)) % 4294967296 =
      (A : Int) := by
  have hA64 : A % 18446744073709551616 = A := Nat.mod_eq_of_lt (by omega)
  have hA2048 : (A + 2048) % 18446744073709551616 = A + 2048 :=
    Nat.mod_eq_of_lt (by omega)
  have hA32 : A % 4294967296 = A := Nat.mod_eq_of_lt (by omega)
  simp only [apply_relocation, for_address, Option.some.injEq, Nat.zero_add] at h1
  rw [hA64, hA2048, hA32, hm1, Nat.or_zero] at h1
  subst h1
  have hp64 : p % 18446744073709551616 = p := Nat.mod_eq_of_lt (by omega)
  have hq0 : read_u32 (write_u32 m p ((A + 2048) &&& 4294963200)) q = 0 := by
    rw [read_u32_write_u32_ne _ _ _ _ (by omega), hm2]
  simp only [apply_relocation, for_address, Nat.zero_add] at h2
  rw [hp64, hq0] at h2
  simp only [hashmap_get, eq_self_iff_true, if_true, Nat.or_zero,
    Option.some.injEq] at h2
  subst h2
  have hw1lt : (A + 2048) &&& 4294963200 < 4294967296 :=
    lt_of_le_of_lt Nat.and_le_right (by norm_num)
  have hw2lt : (A &&& 4095) <<< 20 < 4294967296 := by
    rw [Nat.shiftLeft_eq]
    have : A &&& 4095 ≤ 4095 := Nat.and_le_right
    omega
  have hrp : read_u32 (write_u32 (write_u32 m p ((A + 2048) &&& 4294963200)) q
      ((A &&& 4095) <<< 20)) p = (A + 2048) &&& 4294963200 := by
    rw [read_u32_write_u32_ne _ _ _ _ (by omega), read_u32_write_u32,
      Nat.mod_eq_of_lt hw1lt]
  have hrq : read_u32 (write_u32 (write_u32 m p ((A + 2048) &&& 4294963200)) q
      ((A &&& 4095) <<< 20)) q = (A &&& 4095) <<< 20 := by
    rw [read_u32_write_u32, Nat.mod_eq_of_lt hw2lt]
  rw [hrp, hrq]
  have hf20 : ((A + 2048) &&& 4294963200) >>> 12 = (A + 2048) / 4096 % 1048576 := by
    have hwin := land_window (A + 2048) 20 12
    norm_num at hwin
    rw [hwin, Nat.shiftRight_eq_div_pow]
    norm_num
  have hf12 : ((A &&& 4095) <<< 20) >>> 20 = A % 4096 := by
    have hwin := land_window A 12 0
    norm_num at hwin
    rw [hwin, Nat.shiftLeft_eq, Nat.shiftRight_eq_div_pow]
    norm_num
  rw [hf20, hf12]
  by_cases hc : A % 4096 < 2048 <;> simp only [hc, if_pos, if_neg, if_true,
    if_false, not_lt] <;> omega

theorem hi20_lo12_roundtrip_witness :
    ((554580 : Int) * 4096 + 801) % 4294967296 = ((2271560481 : Nat) : Int) := by
  have h := hi20_lo12_roundtrip 2271560481 4096 4100 (fun _ => 0)
    (fun _ => 0) (fun _ => 0) (fun _ => 0) 0 0
    (by norm_num) (by norm_num) (by omega) rfl rfl
    ((apply_relocation 0
      ⟨RelocationKind.RiscvPCRelHi20, RelocationTarget.LocalFunc 0, 4096,
        fun _ _ => 2271560481⟩ (fun _ => 0) (fun _ => 0) (fun _ => 0) 0 0
      ⟨fun _ => 0, []⟩).getD ⟨fun _ => 0, []⟩)
    ((apply_relocation 0
      ⟨RelocationKind.RiscvPCRelLo12I, RelocationTarget.LocalFunc 0, 4100,
        fun _ _ => 4096⟩ (fun _ => 0) (fun _ => 0) (fun _ => 0) 0 0
      ((apply_relocation 0
        ⟨RelocationKind.RiscvPCRelHi20, RelocationTarget.LocalFunc 0, 4096,
          fun _ _ => 2271560481⟩ (fun _ => 0) (fun _ => 0) (fun _ => 0) 0 0
        ⟨fun _ => 0, []⟩).getD ⟨fun _ => 0, []⟩)).getD ⟨fun _ => 0, []⟩)
    rfl rfl
  exact h

/-! ## Claim C7: ARM64 Movw roundtrip -/

/-- C7: applying `Arm64Movw0..3` with the same 64-bit delta `V` to four
zero-immediate instruction words yields 16-bit fields in bits `[20:5]` whose
concatenation at positions `{0,16,32,48}` reconstructs `V` exactly. -/
theorem movw_roundtrip (V p : Nat) (m : Mem)
    (fns secs fp : Nat → Nat) (lt ltl : Nat)
    (hV : V < 18446744073709551616)
    (hm0 : read_u32 m p = 0) (hm1 : read_u32 m (p + 4) = 0)
    (hm2 : read_u32 m (p + 8) = 0) (hm3 : read_u32 m (p + 12) = 0)
    (st1 st2 st3 st4 : LinkState)
    (h1 : apply_relocation 0 ⟨RelocationKind.Arm64Movw0,
        RelocationTarget.LocalFunc 0, p, fun _ _ => V⟩ fns secs fp lt ltl
        ⟨m, []⟩ = some st1)
    (h2 : apply_relocation 0 ⟨RelocationKind.Arm64Movw1,
        RelocationTarget.LocalFunc 0, p + 4, fun _ _ => V⟩ fns secs fp lt ltl
        st1 = some st2)
    (h3 : apply_relocation 0 ⟨RelocationKind.Arm64Movw2,
        RelocationTarget.LocalFunc 0, p + 8, fun _ _ => V⟩ fns secs fp lt ltl
        st2 = some st3)
    (h4 : apply_relocation 0 ⟨RelocationKind.Arm64Movw3,
        RelocationTarget.LocalFunc 0, p + 12, fun _ _ => V⟩ fns secs fp lt ltl
        st3 = some st4) :
    (read_u32 st4.mem p >>> 5) + (read_u32 st4.mem (p + 4) >>> 5) * 65536 +
      (read_u32 st4.mem (p + 8) >>> 5) * 4294967296 +
      (read_u32 st4.mem (p + 12) >>> 5) * 281474976710656 = V := by
  have hV64 : V % 18446744073709551616 = V := Nat.mod_eq_of_lt hV
  simp only [apply_relocation, for_address, Nat.zero_add] at h1 h2 h3 h4
  rw [hV64] at h1 h2 h3 h4
  rw [hm0, Nat.or_zero, Option.some.injEq] at h1
  subst h1
  rw [read_u32_write_u32_ne _ _ _ _ (by omega), hm1, Nat.or_zero,
    Option.some.injEq] at h2
  subst h2
  rw [read_u32_write_u32_ne _ _ _ _ (by omega),
    read_u32_write_u32_ne _ _ _ _ (by omega), hm2, Nat.or_zero,
    Option.some.injEq] at h3
  subst h3
  rw [read_u32_write_u32_ne _ _ _ _ (by omega),
    read_u32_write_u32_ne _ _ _ _ (by omega),
    read_u32_write_u32_ne _ _ _ _ (by omega), hm3, Nat.or_zero,
    Option.some.injEq] at h4
  subst h4
  have hb0 : V &&& 65535 ≤ 65535 := Nat.and_le_right
  have hb1 : V >>> 16 &&& 65535 ≤ 65535 := Nat.and_le_right
  have hb2 : V >>> 32 &&& 65535 ≤ 65535 := Nat.and_le_right
  have hb3 : V >>> 48 &&& 65535 ≤ 65535 := Nat.and_le_right
  have r0 : read_u32 (write_u32 (write_u32 (write_u32 (write_u32 m p
      ((V &&& 65535) <<< 5)) (p + 4) ((V >>> 16 &&& 65535) <<< 5)) (p + 8)
      ((V >>> 32 &&& 65535) <<< 5)) (p + 12) ((V >>> 48 &&& 65535) <<< 5)) p =
      (V &&& 65535) <<< 5 := by
    rw [read_u32_write_u32_ne _ _ _ _ (by omega),
      read_u32_write_u32_ne _ _ _ _ (by omega),
      read_u32_write_u32_ne _ _ _ _ (by omega), read_u32_write_u32,
      Nat.mod_eq_of_lt (by rw [Nat.shiftLeft_eq]; omega)]
  have r1 : read_u32 (write_u32 (write_u32 (write_u32 (write_u32 m p
      ((V &&& 65535) <<< 5)) (p + 4) ((V >>> 16 &&& 65535) <<< 5)) (p + 8)
      ((V >>> 32 &&& 65535) <<< 5)) (p + 12) ((V >>> 48 &&& 65535) <<< 5))
      (p + 4) = (V >>> 16 &&& 65535) <<< 5 := by
    rw [read_u32_write_u32_ne _ _ _ _ (by omega),
      read_u32_write_u32_ne _ _ _ _ (by omega), read_u32_write_u32,
      Nat.mod_eq_of_lt (by rw [Nat.shiftLeft_eq]; omega)]
  have r2 : read_u32 (write_u32 (write_u32 (write_u32 (write_u32 m p
      ((V &&& 65535) <<< 5)) (p + 4) ((V >>> 16 &&& 65535) <<< 5)) (p + 8)
      ((V >>> 32 &&& 65535) <<< 5)) (p + 12) ((V >>> 48 &&& 65535) <<< 5))
      (p + 8) = (V >>> 32 &&& 65535) <<< 5 := by
    rw [read_u32_write_u32_ne _ _ _ _ (by omega), read_u32_write_u32,
      Nat.mod_eq_of_lt (by rw [Nat.shiftLeft_eq]; omega)]
  have r3 : read_u32 (write_u32 (write_u32 (write_u32 (write_u32 m p
      ((V &&& 65535) <<< 5)) (p + 4) ((V >>> 16 &&& 65535) <<< 5)) (p + 8)
      ((V >>> 32 &&& 65535) <<< 5)) (p + 12) ((V >>> 48 &&& 65535) <<< 5))
      (p + 12) = (V >>> 48 &&& 65535) <<< 5 := by
    rw [read_u32_write_u32,
      Nat.mod_eq_of_lt (by rw [Nat.shiftLeft_eq]; omega)]
  rw [r0, r1, r2, r3]
  have hs : ∀ x : Nat, (x &&& 65535) <<< 5 >>> 5 = x &&& 65535 := by
    intro x
    rw [Nat.shiftLeft_eq, Nat.shiftRight_eq_div_pow]
    norm_num
  rw [hs, hs, hs, hs]
  have e0 := land_window V 16 0
  have e1 := land_window (V >>> 16) 16 0
  have e2 := land_window (V >>> 32) 16 0
  have e3 := land_window (V >>> 48) 16 0
  norm_num at e0 e1 e2 e3
  rw [e0, e1, e2, e3, Nat.shiftRight_eq_div_pow, Nat.shiftRight_eq_div_pow,
    Nat.shiftRight_eq_div_pow]
  norm_num
  omega

theorem movw_roundtrip_witness :
    (57072 : Nat) + 39612 * 65536 + 22136 * 4294967296 +
      4660 * 281474976710656 = 1311768467463790320 := by
  have h := movw_roundtrip 1311768467463790320 0 (fun _ => 0)
    (fun _ => 0) (fun _ => 0) (fun _ => 0) 0 0
    (by norm_num) rfl rfl rfl rfl
    ((apply_relocation 0 ⟨RelocationKind.Arm64Movw0,
      RelocationTarget.LocalFunc 0, 0, fun _ _ => 1311768467463790320⟩
      (fun _ => 0) (fun _ => 0) (fun _ => 0) 0 0
      ⟨fun _ => 0, []⟩).getD ⟨fun _ => 0, []⟩)
    ((apply_relocation 0 ⟨RelocationKind.Arm64Movw1,
      RelocationTarget.LocalFunc 0, 4, fun _ _ => 1311768467463790320⟩
      (fun _ => 0) (fun _ => 0) (fun _ => 0) 0 0
      ((apply_relocation 0 ⟨RelocationKind.Arm64Movw0,
        RelocationTarget.LocalFunc 0, 0, fun _ _ => 1311768467463790320⟩
        (fun _ => 0) (fun _ => 0) (fun _ => 0) 0 0
        ⟨fun _ => 0, []⟩).getD ⟨fun _ => 0, []⟩)).getD ⟨fun _ => 0, []⟩)
    ((apply_relocation 0 ⟨RelocationKind.Arm64Movw2,
      RelocationTarget.LocalFunc 0, 8, fun _ _ => 1311768467463790320⟩
      (fun _ => 0) (fun _ => 0) (fun _ => 0) 0 0
      ((apply_relocation 0 ⟨RelocationKind.Arm64Movw1,
        RelocationTarget.LocalFunc 0, 4, fun _ _ => 1311768467463790320⟩
        (fun _ => 0) (fun _ => 0) (fun _ => 0) 0 0
        ((apply_relocation 0 ⟨RelocationKind.Arm64Movw0,
          RelocationTarget.LocalFunc 0, 0, fun _ _ => 1311768467463790320⟩
          (fun _ => 0) (fun _ => 0) (fun _ => 0) 0 0
          ⟨fun _ => 0, []⟩).getD ⟨fun _ => 0, []⟩)).getD
        ⟨fun _ => 0, []⟩)).getD ⟨fun _ => 0, []⟩)
    ((apply_relocation 0 ⟨RelocationKind.Arm64Movw3,
      RelocationTarget.LocalFunc 0, 12, fun _ _ => 1311768467463790320⟩
      (fun _ => 0) (fun _ => 0) (fun _ => 0) 0 0
      ((apply_relocation 0 ⟨RelocationKind.Arm64Movw2,
        RelocationTarget.LocalFunc 0, 8, fun _ _ => 1311768467463790320⟩
        (fun _ => 0) (fun _ => 0) (fun _ => 0) 0 0
        ((apply_relocation 0 ⟨RelocationKind.Arm64Movw1,
          RelocationTarget.LocalFunc 0, 4, fun _ _ => 1311768467463790320⟩
          (fun _ => 0) (fun _ => 0) (fun _ => 0) 0 0
          ((apply_relocation 0 ⟨RelocationKind.Arm64Movw0,
            RelocationTarget.LocalFunc 0, 0, fun _ _ => 1311768467463790320⟩
            (fun _ => 0) (fun _ => 0) (fun _ => 0) 0 0
            ⟨fun _ => 0, []⟩).getD ⟨fun _ => 0, []⟩)).getD
          ⟨fun _ => 0, []⟩)).getD ⟨fun _ => 0, []⟩)).getD ⟨fun _ => 0, []⟩)
    rfl rfl rfl rfl
  exact h

/-! ## Claim C6: mask preservation for RMW kinds -/

/-- C6: for every read-modify-write relocation kind, the bits of the patched
word(s) outside the documented immediate-field mask are unchanged; store
kinds carry no obligation. -/
theorem mask_preservation (body : Nat) (r : Relocation)
    (fns secs fp : Nat → Nat) (lt ltl : Nat) (st st' : LinkState)
    (h : apply_relocation body r fns secs fp lt ltl st = some st') :
    mask_preserved r.kind (body + r.offset) st.mem st'.mem := by
  rcases r with ⟨k, tgt, off, dfn⟩
  cases k
  case Abs8 => trivial
  case X86PCRel4 => trivial
  case X86PCRel8 => trivial
  case X86CallPCRel4 => trivial
  case Unsupported => trivial
  case Arm64Call =>
    simp only [apply_relocation, for_address] at h
    split at h
    · cases h
    · obtain rfl := state_of_some h
      simp only [mask_preserved]
      rw [write_land32 _ _ _ _ (by norm_num), Nat.and_distrib_right,
        masked_land_eq_zero 0x3ffffff 0xfc000000 (by decide), zero_lor,
        Nat.and_assoc, Nat.and_self]
  case Arm64Movw0 =>
    simp only [apply_relocation, for_address] at h
    obtain rfl := state_of_some h
    simp only [mask_preserved]
    exact or_arm_preserved (by norm_num)
      (shl_land_eq_zero 16 5 (lt_of_le_of_lt Nat.and_le_right (by norm_num))
        (by decide))
  case Arm64Movw1 =>
    simp only [apply_relocation, for_address] at h
    obtain rfl := state_of_some h
    simp only [mask_preserved]
    exact or_arm_preserved (by norm_num)
      (shl_land_eq_zero 16 5 (lt_of_le_of_lt Nat.and_le_right (by norm_num))
        (by decide))
  case Arm64Movw2 =>
    simp only [apply_relocation, for_address] at h
    obtain rfl := state_of_some h
    simp only [mask_preserved]
    exact or_arm_preserved (by norm_num)
      (shl_land_eq_zero 16 5 (lt_of_le_of_lt Nat.and_le_right (by norm_num))
        (by decide))
  case Arm64Movw3 =>
    simp only [apply_relocation, for_address] at h
    obtain rfl := state_of_some h
    simp only [mask_preserved]
    exact or_arm_preserved (by norm_num)
      (shl_land_eq_zero 16 5 (lt_of_le_of_lt Nat.and_le_right (by norm_num))
        (by decide))
  case RiscvPCRelHi20 =>
    simp only [apply_relocation, for_address] at h
    obtain rfl := state_of_some h
    simp only [mask_preserved]
    exact or_arm_preserved (by norm_num)
      (masked_land_eq_zero 0xfffff000 0xfff (by decide) _)
  case RiscvPCRelLo12I =>
    simp only [apply_relocation, for_address] at h
    split at h
    · cases h
    · obtain rfl := state_of_some h
      simp only [mask_preserved]
      exact or_arm_preserved (by norm_num)
        (shl_land_eq_zero 12 20 (lt_of_le_of_lt Nat.and_le_right (by norm_num))
          (by decide))
  case RiscvCall =>
    simp only [apply_relocation, for_address] at h
    obtain rfl := state_of_some h
    simp only [mask_preserved]
    rw [write_land64 _ _ _ _ (by norm_num), Nat.and_distrib_right,
      Nat.and_distrib_right]
    rw [show ∀ x : Nat, (x &&& 4095) <<< 52 &&& 4503595332407295 = 0 from
      fun x => shl_land_eq_zero 12 52
        (lt_of_le_of_lt Nat.and_le_right (by norm_num)) (by decide)]
    rw [show ∀ x : Nat, (x &&& 4294963200) &&& 4503595332407295 = 0 from
      fun x => masked_land_eq_zero 4294963200 4503595332407295 (by decide) x]
    rw [zero_lor, zero_lor]
  case LArchAbsHi20 =>
    simp only [apply_relocation, for_address] at h
    obtain rfl := state_of_some h
    simp only [mask_preserved]
    exact or_arm_preserved (by norm_num)
      (shl_land_eq_zero 20 5 (lt_of_le_of_lt Nat.and_le_right (by norm_num))
        (by decide))
  case LArchPCAlaHi20 =>
    simp only [apply_relocation, for_address] at h
    obtain rfl := state_of_some h
    simp only [mask_preserved]
    exact or_arm_preserved (by norm_num)
      (shl_land_eq_zero 20 5 (lt_of_le_of_lt Nat.and_le_right (by norm_num))
        (by decide))
  case LArchAbsLo12 =>
    simp only [apply_relocation, for_address] at h
    obtain rfl := state_of_some h
    simp only [mask_preserved]
    exact or_arm_preserved (by norm_num)
      (shl_land_eq_zero 12 10 (lt_of_le_of_lt Nat.and_le_right (by norm_num))
        (by decide))
  case LArchPCAlaLo12 =>
    simp only [apply_relocation, for_address] at h
    obtain rfl := state_of_some h
    simp only [mask_preserved]
    exact or_arm_preserved (by norm_num)
      (shl_land_eq_zero 12 10 (lt_of_le_of_lt Nat.and_le_right (by norm_num))
        (by decide))
  case LArchAbs64Hi12 =>
    simp only [apply_relocation, for_address] at h
    obtain rfl := state_of_some h
    simp only [mask_preserved]
    exact or_arm_preserved (by norm_num)
      (shl_land_eq_zero 12 10 (lt_of_le_of_lt Nat.and_le_right (by norm_num))
        (by decide))
  case LArchPCAla64Hi12 =>
    simp only [apply_relocation, for_address] at h
    obtain rfl := state_of_some h
    simp only [mask_preserved]
    exact or_arm_preserved (by norm_num)
      (shl_land_eq_zero 12 10 (lt_of_le_of_lt Nat.and_le_right (by norm_num))
        (by decide))
  case LArchAbs64Lo20 =>
    simp only [apply_relocation, for_address] at h
    obtain rfl := state_of_some h
    simp only [mask_preserved]
    exact or_arm_preserved (by norm_num)
      (shl_land_eq_zero 20 5 (lt_of_le_of_lt Nat.and_le_right (by norm_num))
        (by decide))
  case LArchPCAla64Lo20 =>
    simp only [apply_relocation, for_address] at h
    obtain rfl := state_of_some h
    simp only [mask_preserved]
    exact or_arm_preserved (by norm_num)
      (shl_land_eq_zero 20 5 (lt_of_le_of_lt Nat.and_le_right (by norm_num))
        (by decide))
  case LArchCall36 =>
    simp only [apply_relocation, for_address] at h
    obtain rfl := state_of_some h
    simp only [mask_preserved]
    constructor
    · rw [read_u32_write_u32_ne _ _ _ _ (by omega)]
      exact or_arm_preserved (by norm_num)
        (shl_land_eq_zero 20 5 (lt_of_le_of_lt Nat.and_le_right (by norm_num))
          (by decide))
    · refine Eq.trans (or_arm_preserved (by norm_num)
        (shl_land_eq_zero 16 10 (lt_of_le_of_lt Nat.and_le_right (by norm_num))
          (by decide))) ?_
      rw [read_u32_write_u32_ne _ _ _ _ (by omega)]
  case Aarch64AdrPrelPgHi21 =>
    simp only [apply_relocation, for_address] at h
    split at h
    · obtain rfl := state_of_some h
      simp only [mask_preserved]
      rw [write_land32 _ _ _ _ (by norm_num), Nat.and_distrib_right,
        Nat.and_distrib_right]
      rw [show ∀ x : Nat, (x &&& 3) <<< 29 &&& 2667577375 = 0 from
        fun x => shl_land_eq_zero 2 29
          (lt_of_le_of_lt Nat.and_le_right (by norm_num)) (by decide)]
      rw [show ∀ x : Nat, (x &&& 524287) <<< 5 &&& 2667577375 = 0 from
        fun x => shl_land_eq_zero 19 5
          (lt_of_le_of_lt Nat.and_le_right (by norm_num)) (by decide)]
      rw [Nat.or_zero, Nat.or_zero, Nat.and_assoc]
      congr 1
    · cases h
  case Aarch64AdrPrelLo21 =>
    simp only [apply_relocation, for_address] at h
    split at h
    · obtain rfl := state_of_some h
      simp only [mask_preserved]
      rw [write_land32 _ _ _ _ (by norm_num), Nat.and_distrib_right,
        Nat.and_distrib_right]
      rw [show ∀ x : Nat, (x &&& 3) <<< 29 &&& 2667577375 = 0 from
        fun x => shl_land_eq_zero 2 29
          (lt_of_le_of_lt Nat.and_le_right (by norm_num)) (by decide)]
      rw [show ∀ x : Nat, (x &&& 524287) <<< 5 &&& 2667577375 = 0 from
        fun x => shl_land_eq_zero 19 5
          (lt_of_le_of_lt Nat.and_le_right (by norm_num)) (by decide)]
      rw [Nat.or_zero, Nat.or_zero, Nat.and_assoc]
      congr 1
    · cases h
  case Aarch64AddAbsLo12Nc =>
    simp only [apply_relocation, for_address] at h
    obtain rfl := state_of_some h
    simp only [mask_preserved]
    rw [write_land32 _ _ _ _ (by norm_num), Nat.and_distrib_right]
    rw [show ∀ x : Nat, (x &&& 4095) <<< 10 &&& 4290774015 = 0 from
      fun x => shl_land_eq_zero 12 10
        (lt_of_le_of_lt Nat.and_le_right (by norm_num)) (by decide)]
    rw [Nat.or_zero, Nat.and_assoc]
    congr 1
  case Aarch64Ldst128AbsLo12Nc =>
    simp only [apply_relocation, for_address] at h
    obtain rfl := state_of_some h
    simp only [mask_preserved]
    rw [write_land32 _ _ _ _ (by norm_num), Nat.and_distrib_right]
    rw [show ∀ x : Nat, (x &&& 4095) >>> 4 <<< 10 &&& 4290774015 = 0 from
      fun x => shl_land_eq_zero 12 10 (by
        rw [Nat.shiftRight_eq_div_pow]
        have hx : x &&& 4095 ≤ 4095 := Nat.and_le_right
        norm_num
        omega) (by decide)]
    rw [zero_lor, Nat.and_assoc, Nat.and_self]
  case Aarch64Ldst64AbsLo12Nc =>
    simp only [apply_relocation, for_address] at h
    obtain rfl := state_of_some h
    simp only [mask_preserved]
    rw [write_land32 _ _ _ _ (by norm_num), Nat.and_distrib_right]
    rw [show ∀ x : Nat, (x &&& 4095) >>> 3 <<< 10 &&& 4290774015 = 0 from
      fun x => shl_land_eq_zero 12 10 (by
        rw [Nat.shiftRight_eq_div_pow]
        have hx : x &&& 4095 ≤ 4095 := Nat.and_le_right
        norm_num
        omega) (by decide)]
    rw [zero_lor, Nat.and_assoc, Nat.and_self]

theorem mask_preservation_witness :
    mask_preserved RelocationKind.Arm64Movw0 (8 + 0) (fun _ => 17)
      ((apply_relocation 8 ⟨RelocationKind.Arm64Movw0,
        RelocationTarget.LocalFunc 0, 0, fun _ _ => 74565⟩
        (fun _ => 0) (fun _ => 0) (fun _ => 0) 0 0
        ⟨fun _ => 17, []⟩).getD ⟨fun _ => 17, []⟩).mem :=
  mask_preservation 8 ⟨RelocationKind.Arm64Movw0,
    RelocationTarget.LocalFunc 0, 0, fun _ _ => 74565⟩
    (fun _ => 0) (fun _ => 0) (fun _ => 0) 0 0 ⟨fun _ => 17, []⟩
    ((apply_relocation 8 ⟨RelocationKind.Arm64Movw0,
      RelocationTarget.LocalFunc 0, 0, fun _ _ => 74565⟩
      (fun _ => 0) (fun _ => 0) (fun _ => 0) 0 0
      ⟨fun _ => 17, []⟩).getD ⟨fun _ => 17, []⟩) rfl

/-! ## Claim C8: byte-affine infrastructure -/

theorem byte_affine_id : byte_affine (fun m => m) :=
  fun _ => Or.inl (fun _ => rfl)

theorem byte_affine_ext {f g : Mem → Mem} (h : ∀ m, f m = g m)
    (hf : byte_affine f) : byte_affine g := by
  intro p
  rcases hf p with hid | ⟨a, c, ha, hc, haf⟩
  · left
    intro m
    rw [← h, hid]
  · right
    exact ⟨a, c, ha, hc, fun m => by rw [← h, haf]⟩

theorem byte_affine_comp {f g : Mem → Mem} (hf : byte_affine f)
    (hg : byte_affine g) : byte_affine (fun m => g (f m)) := by
  intro p
  rcases hg p with hgid | ⟨a2, c2, ha2, hc2, hgaf⟩
  · rcases hf p with hfid | ⟨a1, c1, ha1, hc1, hfaf⟩
    · left
      intro m
      simp only []
      rw [hgid, hfid]
    · right
      exact ⟨a1, c1, ha1, hc1, fun m => by simp only []; rw [hgid, hfaf]⟩
  · rcases hf p with hfid | ⟨a1, c1, ha1, hc1, hfaf⟩
    · right
      exact ⟨a2, c2, ha2, hc2, fun m => by simp only []; rw [hgaf, hfid]⟩
    · right
      refine ⟨a1 &&& a2, (c1 &&& a2) ||| c2, lt_of_le_of_lt Nat.and_le_left ha1,
        ?_, fun m => ?_⟩
      · have h1 : c1 &&& a2 ≤ c1 := Nat.and_le_left
        have h2 := Nat.or_lt_two_pow (x := c1 &&& a2) (y := c2) (n := 8)
          (by norm_num; omega) (by norm_num; omega)
        norm_num at h2
        exact h2
      · simp only []
        rw [hgaf, hfaf]
        have h1 : m p % 256 &&& a1 ≤ a1 := Nat.and_le_right
        have hv : (m p % 256 &&& a1) ||| c1 < 256 := by
          have h2 := Nat.or_lt_two_pow (x := m p % 256 &&& a1) (y := c1) (n := 8)
            (by norm_num; omega) (by norm_num; omega)
          norm_num at h2
          exact h2
        rw [Nat.mod_eq_of_lt hv, Nat.and_distrib_right, Nat.and_assoc,
          Nat.or_assoc]

theorem byte_affine_idem {f : Mem → Mem} (hf : byte_affine f) (m : Mem)
    (p : Nat) : f (f m) p = f m p := by
  rcases hf p with hid | ⟨a, c, ha, hc, haf⟩
  · rw [hid]
  · rw [haf, haf]
    have h1 : m p % 256 &&& a ≤ a := Nat.and_le_right
    have hv : (m p % 256 &&& a) ||| c < 256 := by
      have h2 := Nat.or_lt_two_pow (x := m p % 256 &&& a) (y := c) (n := 8)
        (by norm_num; omega) (by norm_num; omega)
      norm_num at h2
      exact h2
    rw [Nat.mod_eq_of_lt hv, Nat.and_distrib_right, Nat.and_assoc,
      Nat.and_self, Nat.or_assoc, absorb_lor]

theorem affine_byte_extract (v M C n : Nat) :
    ((v &&& M) ||| C) / 2 ^ n % 256 =
      ((v / 2 ^ n % 256) &&& (M / 2 ^ n % 256)) ||| (C / 2 ^ n % 256) := by
  have h8 : (256 : Nat) = 2 ^ 8 := by norm_num
  rw [h8, lor_div_two_pow, lor_mod_two_pow, land_div_two_pow, land_mod_two_pow]

theorem byte_affine_write_u32_rmw (ra M C : Nat) :
    byte_affine (fun m => write_u32 m ra ((read_u32 m ra &&& M) ||| C)) := by
  intro p
  by_cases e0 : p = ra
  · subst e0
    right
    refine ⟨M % 256, C % 256, by omega, by omega, fun m => ?_⟩
    simp only []
    rw [write_u32_byte0]
    have e := affine_byte_extract (read_u32 m p) M C 0
    norm_num at e
    rw [e]
    have h3 := read_u32_byte m p 0 (by omega)
    norm_num at h3
    rw [h3]
  by_cases e1 : p = ra + 1
  · subst e1
    right
    refine ⟨M / 256 % 256, C / 256 % 256, by omega, by omega, fun m => ?_⟩
    simp only []
    rw [write_u32_byte1]
    have e := affine_byte_extract (read_u32 m ra) M C 8
    norm_num at e
    rw [e]
    have h3 := read_u32_byte m ra 1 (by omega)
    norm_num at h3
    rw [h3]
  by_cases e2 : p = ra + 2
  · subst e2
    right
    refine ⟨M / 65536 % 256, C / 65536 % 256, by omega, by omega, fun m => ?_⟩
    simp only []
    rw [write_u32_byte2]
    have e := affine_byte_extract (read_u32 m ra) M C 16
    norm_num at e
    rw [e]
    have h3 := read_u32_byte m ra 2 (by omega)
    norm_num at h3
    rw [h3]
  by_cases e3 : p = ra + 3
  · subst e3
    right
    refine ⟨M / 16777216 % 256, C / 16777216 % 256, by omega, by omega,
      fun m => ?_⟩
    simp only []
    rw [write_u32_byte3]
    have e := affine_byte_extract (read_u32 m ra) M C 24
    norm_num at e
    rw [e]
    have h3 := read_u32_byte m ra 3 (by omega)
    norm_num at h3
    rw [h3]
  left
  intro m
  exact write_u32_outside _ _ _ _ (by omega)

theorem byte_affine_write_u64_rmw (ra M C : Nat) :
    byte_affine (fun m => write_u64 m ra ((read_u64 m ra &&& M) ||| C)) := by
  intro p
  by_cases e0 : p = ra
  · subst e0
    right
    refine ⟨M % 256, C % 256, by omega, by omega, fun m => ?_⟩
    have w := write_u64_byte m p ((read_u64 m p &&& M) ||| C) 0 (by omega)
    norm_num at w
    simp only []
    rw [w]
    have e := affine_byte_extract (read_u64 m p) M C 0
    norm_num at e
    rw [e]
    have h3 := read_u64_byte m p 0 (by omega)
    norm_num at h3
    rw [h3]
  by_cases e1 : p = ra + 1
  · subst e1
    right
    refine ⟨M / 256 % 256, C / 256 % 256, by omega, by omega, fun m => ?_⟩
    have w := write_u64_byte m ra ((read_u64 m ra &&& M) ||| C) 1 (by omega)
    norm_num at w
    simp only []
    rw [w]
    have e := affine_byte_extract (read_u64 m ra) M C 8
    norm_num at e
    rw [e]
    have h3 := read_u64_byte m ra 1 (by omega)
    norm_num at h3
    rw [h3]
  by_cases e2 : p = ra + 2
  · subst e2
    right
    refine ⟨M / 65536 % 256, C / 65536 % 256, by omega, by omega, fun m => ?_⟩
    have w := write_u64_byte m ra ((read_u64 m ra &&& M) ||| C) 2 (by omega)
    norm_num at w
    simp only []
    rw [w]
    have e := affine_byte_extract (read_u64 m ra) M C 16
    norm_num at e
    rw [e]
    have h3 := read_u64_byte m ra 2 (by omega)
    norm_num at h3
    rw [h3]
  by_cases e3 : p = ra + 3
  · subst e3
    right
    refine ⟨M / 16777216 % 256, C / 16777216 % 256, by omega, by omega,
      fun m => ?_⟩
    have w := write_u64_byte m ra ((read_u64 m ra &&& M) ||| C) 3 (by omega)
    norm_num at w
    simp only []
    rw [w]
    have e := affine_byte_extract (read_u64 m ra) M C 24
    norm_num at e
    rw [e]
    have h3 := read_u64_byte m ra 3 (by omega)
    norm_num at h3
    rw [h3]
  by_cases e4 : p = ra + 4
  · subst e4
    right
    refine ⟨M / 4294967296 % 256, C / 4294967296 % 256, by omega, by omega,
      fun m => ?_⟩
    have w := write_u64_byte m ra ((read_u64 m ra &&& M) ||| C) 4 (by omega)
    norm_num at w
    simp only []
    rw [w]
    have e := affine_byte_extract (read_u64 m ra) M C 32
    norm_num at e
    rw [e]
    have h3 := read_u64_byte m ra 4 (by omega)
    norm_num at h3
    rw [h3]
  by_cases e5 : p = ra + 5
  · subst e5
    right
    refine ⟨M / 1099511627776 % 256, C / 1099511627776 % 256, by omega,
      by omega, fun m => ?_⟩
    have w := write_u64_byte m ra ((read_u64 m ra &&& M) ||| C) 5 (by omega)
    norm_num at w
    simp only []
    rw [w]
    have e := affine_byte_extract (read_u64 m ra) M C 40
    norm_num at e
    rw [e]
    have h3 := read_u64_byte m ra 5 (by omega)
    norm_num at h3
    rw [h3]
  by_cases e6 : p = ra + 6
  · subst e6
    right
    refine ⟨M / 281474976710656 % 256, C / 281474976710656 % 256, by omega,
      by omega, fun m => ?_⟩
    have w := write_u64_byte m ra ((read_u64 m ra &&& M) ||| C) 6 (by omega)
    norm_num at w
    simp only []
    rw [w]
    have e := affine_byte_extract (read_u64 m ra) M C 48
    norm_num at e
    rw [e]
    have h3 := read_u64_byte m ra 6 (by omega)
    norm_num at h3
    rw [h3]
  by_cases e7 : p = ra + 7
  · subst e7
    right
    refine ⟨M / 72057594037927936 % 256, C / 72057594037927936 % 256, by omega,
      by omega, fun m => ?_⟩
    have w := write_u64_byte m ra ((read_u64 m ra &&& M) ||| C) 7 (by omega)
    norm_num at w
    simp only []
    rw [w]
    have e := affine_byte_extract (read_u64 m ra) M C 56
    norm_num at e
    rw [e]
    have h3 := read_u64_byte m ra 7 (by omega)
    norm_num at h3
    rw [h3]
  left
  intro m
  exact write_u64_outside _ _ _ _ (by omega)

theorem read_u32_land_max (m : Mem) (ra : Nat) :
    read_u32 m ra &&& 4294967295 = read_u32 m ra := by
  have hlt := read_u32_lt m ra
  have h := Nat.and_pow_two_sub_one_eq_mod (read_u32 m ra) 32
  norm_num at h
  rw [h]
  omega

theorem read_u64_land_max (m : Mem) (ra : Nat) :
    read_u64 m ra &&& 18446744073709551615 = read_u64 m ra := by
  have hlt := read_u64_lt m ra
  have h := Nat.and_pow_two_sub_one_eq_mod (read_u64 m ra) 64
  norm_num at h
  rw [h]
  omega

theorem byte_affine_store32 (ra v : Nat) :
    byte_affine (fun m => write_u32 m ra v) :=
  byte_affine_ext (fun m => by rw [Nat.and_zero, zero_lor])
    (byte_affine_write_u32_rmw ra 0 v)

theorem byte_affine_store64 (ra v : Nat) :
    byte_affine (fun m => write_u64 m ra v) :=
  byte_affine_ext (fun m => by rw [Nat.and_zero, zero_lor])
    (byte_affine_write_u64_rmw ra 0 v)

theorem byte_affine_or32 (ra imm : Nat) :
    byte_affine (fun m => write_u32 m ra (imm ||| read_u32 m ra)) :=
  byte_affine_ext
    (fun m => by rw [read_u32_land_max m ra,
      Nat.or_comm (read_u32 m ra) imm])
    (byte_affine_write_u32_rmw ra 4294967295 imm)

theorem byte_affine_or2_64 (ra C1 C2 : Nat) :
    byte_affine (fun m => write_u64 m ra ((C1 ||| C2) ||| read_u64 m ra)) :=
  byte_affine_ext
    (fun m => by rw [read_u64_land_max m ra,
      Nat.or_comm (read_u64 m ra) (C1 ||| C2)])
    (byte_affine_write_u64_rmw ra 18446744073709551615 (C1 ||| C2))

theorem byte_affine_rmw_comm32 (ra M C : Nat) :
    byte_affine (fun m => write_u32 m ra (C ||| (read_u32 m ra &&& M))) :=
  byte_affine_ext
    (fun m => by rw [Nat.or_comm (read_u32 m ra &&& M) C])
    (byte_affine_write_u32_rmw ra M C)

theorem byte_affine_rmw_or2_32 (ra M C1 C2 : Nat) :
    byte_affine
      (fun m => write_u32 m ra (((read_u32 m ra &&& M) ||| C1) ||| C2)) :=
  byte_affine_ext
    (fun m => by rw [← Nat.or_assoc (read_u32 m ra &&& M) C1 C2])
    (byte_affine_write_u32_rmw ra M (C1 ||| C2))

/-- Every encoder arm other than `RiscvPCRelLo12I` acts on the state as a
memory-independent success flag, a byte-affine memory transformation, and a
memory-independent table transformation. -/
theorem apply_relocation_affine (body : Nat) (r : Relocation)
    (fns secs fp : Nat → Nat) (lt ltl : Nat)
    (hk : r.kind ≠ RelocationKind.RiscvPCRelLo12I) :
    ∃ (ok : Bool) (F : Mem → Mem) (T : List (Nat × Nat) → List (Nat × Nat)),
      byte_affine F ∧
      ∀ mem t, apply_relocation body r fns secs fp lt ltl ⟨mem, t⟩ =
        if ok then some ⟨F mem, T t⟩ else none := by
  rcases r with ⟨k, tgt, off, dfn⟩
  cases k
  case Abs8 =>
    exact ⟨true, fun m => write_u64 m (body + off)
      (dfn body (target_func_address ⟨RelocationKind.Abs8, tgt, off, dfn⟩ fns secs fp lt ltl) % 18446744073709551616), id,
      byte_affine_store64 _ _, fun mem t => rfl⟩
  case X86PCRel4 =>
    exact ⟨true, fun m => write_u32 m (body + off)
      (dfn body (target_func_address ⟨RelocationKind.X86PCRel4, tgt, off, dfn⟩ fns secs fp lt ltl) % 18446744073709551616), id,
      byte_affine_store32 _ _, fun mem t => rfl⟩
  case X86PCRel8 =>
    exact ⟨true, fun m => write_u64 m (body + off)
      (dfn body (target_func_address ⟨RelocationKind.X86PCRel8, tgt, off, dfn⟩ fns secs fp lt ltl) % 18446744073709551616), id,
      byte_affine_store64 _ _, fun mem t => rfl⟩
  case X86CallPCRel4 =>
    exact ⟨true, fun m => write_u32 m (body + off)
      (dfn body (target_func_address ⟨RelocationKind.X86CallPCRel4, tgt, off, dfn⟩ fns secs fp lt ltl) % 18446744073709551616), id,
      byte_affine_store32 _ _, fun mem t => rfl⟩
  case Arm64Movw0 =>
    exact ⟨true, fun m => write_u32 m (body + off)
      (((dfn body (target_func_address ⟨RelocationKind.Arm64Movw0, tgt, off, dfn⟩ fns secs fp lt ltl) % 18446744073709551616 &&& 65535) <<< 5) ||| read_u32 m (body + off)), id,
      byte_affine_or32 _ _, fun mem t => rfl⟩
  case Arm64Movw1 =>
    exact ⟨true, fun m => write_u32 m (body + off)
      ((((dfn body (target_func_address ⟨RelocationKind.Arm64Movw1, tgt, off, dfn⟩ fns secs fp lt ltl) % 18446744073709551616) >>> 16 &&& 65535) <<< 5) ||| read_u32 m (body + off)), id,
      byte_affine_or32 _ _, fun mem t => rfl⟩
  case Arm64Movw2 =>
    exact ⟨true, fun m => write_u32 m (body + off)
      ((((dfn body (target_func_address ⟨RelocationKind.Arm64Movw2, tgt, off, dfn⟩ fns secs fp lt ltl) % 18446744073709551616) >>> 32 &&& 65535) <<< 5) ||| read_u32 m (body + off)), id,
      byte_affine_or32 _ _, fun mem t => rfl⟩
  case Arm64Movw3 =>
    exact ⟨true, fun m => write_u32 m (body + off)
      ((((dfn body (target_func_address ⟨RelocationKind.Arm64Movw3, tgt, off, dfn⟩ fns secs fp lt ltl) % 18446744073709551616) >>> 48 &&& 65535) <<< 5) ||| read_u32 m (body + off)), id,
      byte_affine_or32 _ _, fun mem t => rfl⟩
  case LArchAbsHi20 =>
    exact ⟨true, fun m => write_u32 m (body + off)
      ((((dfn body (target_func_address ⟨RelocationKind.LArchAbsHi20, tgt, off, dfn⟩ fns secs fp lt ltl) % 18446744073709551616) >>> 12 &&& 1048575) <<< 5) ||| read_u32 m (body + off)), id,
      byte_affine_or32 _ _, fun mem t => rfl⟩
  case LArchPCAlaHi20 =>
    exact ⟨true, fun m => write_u32 m (body + off)
      ((((dfn body (target_func_address ⟨RelocationKind.LArchPCAlaHi20, tgt, off, dfn⟩ fns secs fp lt ltl) % 18446744073709551616) >>> 12 &&& 1048575) <<< 5) ||| read_u32 m (body + off)), id,
      byte_affine_or32 _ _, fun mem t => rfl⟩
  case LArchAbsLo12 =>
    exact ⟨true, fun m => write_u32 m (body + off)
      (((dfn body (target_func_address ⟨RelocationKind.LArchAbsLo12, tgt, off, dfn⟩ fns secs fp lt ltl) % 18446744073709551616 &&& 4095) <<< 10) ||| read_u32 m (body + off)), id,
      byte_affine_or32 _ _, fun mem t => rfl⟩
  case LArchPCAlaLo12 =>
    exact ⟨true, fun m => write_u32 m (body + off)
      (((dfn body (target_func_address ⟨RelocationKind.LArchPCAlaLo12, tgt, off, dfn⟩ fns secs fp lt ltl) % 18446744073709551616 &&& 4095) <<< 10) ||| read_u32 m (body + off)), id,
      byte_affine_or32 _ _, fun mem t => rfl⟩
  case LArchAbs64Hi12 =>
    exact ⟨true, fun m => write_u32 m (body + off)
      ((((dfn body (target_func_address ⟨RelocationKind.LArchAbs64Hi12, tgt, off, dfn⟩ fns secs fp lt ltl) % 18446744073709551616) >>> 52 &&& 4095) <<< 10) ||| read_u32 m (body + off)), id,
      byte_affine_or32 _ _, fun mem t => rfl⟩
  case LArchPCAla64Hi12 =>
    exact ⟨true, fun m => write_u32 m (body + off)
      ((((dfn body (target_func_address ⟨RelocationKind.LArchPCAla64Hi12, tgt, off, dfn⟩ fns secs fp lt ltl) % 18446744073709551616) >>> 52 &&& 4095) <<< 10) ||| read_u32 m (body + off)), id,
      byte_affine_or32 _ _, fun mem t => rfl⟩
  case LArchAbs64Lo20 =>
    exact ⟨true, fun m => write_u32 m (body + off)
      ((((dfn body (target_func_address ⟨RelocationKind.LArchAbs64Lo20, tgt, off, dfn⟩ fns secs fp lt ltl) % 18446744073709551616) >>> 32 &&& 1048575) <<< 5) ||| read_u32 m (body + off)), id,
      byte_affine_or32 _ _, fun mem t => rfl⟩
  case LArchPCAla64Lo20 =>
    exact ⟨true, fun m => write_u32 m (body + off)
      ((((dfn body (target_func_address ⟨RelocationKind.LArchPCAla64Lo20, tgt, off, dfn⟩ fns secs fp lt ltl) % 18446744073709551616) >>> 32 &&& 1048575) <<< 5) ||| read_u32 m (body + off)), id,
      byte_affine_or32 _ _, fun mem t => rfl⟩
  case RiscvPCRelHi20 =>
    exact ⟨true, fun m => write_u32 m (body + off)
      (((dfn body (target_func_address ⟨RelocationKind.RiscvPCRelHi20, tgt, off, dfn⟩ fns secs fp lt ltl) % 18446744073709551616 + 2048) % 18446744073709551616 &&& 4294963200) |||
        read_u32 m (body + off)),
      fun t => (body + off, dfn body (target_func_address ⟨RelocationKind.RiscvPCRelHi20, tgt, off, dfn⟩ fns secs fp lt ltl) % 18446744073709551616 % 4294967296) :: t,
      byte_affine_or32 _ _, fun mem t => rfl⟩
  case RiscvPCRelLo12I =>
    exact absurd rfl hk
  case RiscvCall =>
    exact ⟨true, fun m => write_u64 m (body + off)
      ((((dfn body (target_func_address ⟨RelocationKind.RiscvCall, tgt, off, dfn⟩ fns secs fp lt ltl) % 18446744073709551616) &&& 4095) <<< 52 |||
        (dfn body (target_func_address ⟨RelocationKind.RiscvCall, tgt, off, dfn⟩ fns secs fp lt ltl) % 18446744073709551616 + 2048) % 18446744073709551616 &&& 4294963200) |||
        read_u64 m (body + off)), id,
      byte_affine_or2_64 _ _ _, fun mem t => rfl⟩
  case LArchCall36 =>
    exact ⟨true, fun m =>
      write_u32 (write_u32 m (body + off)
          (((dfn body (target_func_address ⟨RelocationKind.LArchCall36, tgt, off, dfn⟩ fns secs fp lt ltl) % 18446744073709551616) >>> 18 &&& 1048575) <<< 5 ||| read_u32 m (body + off)))
        (body + off + 4)
        (((dfn body (target_func_address ⟨RelocationKind.LArchCall36, tgt, off, dfn⟩ fns secs fp lt ltl) % 18446744073709551616) >>> 2 &&& 65535) <<< 10 |||
          read_u32 (write_u32 m (body + off)
            (((dfn body (target_func_address ⟨RelocationKind.LArchCall36, tgt, off, dfn⟩ fns secs fp lt ltl) % 18446744073709551616) >>> 18 &&& 1048575) <<< 5 ||| read_u32 m (body + off)))
            (body + off + 4)), id,
      byte_affine_comp (byte_affine_or32 (body + off) _)
        (byte_affine_or32 (body + off + 4) _),
      fun mem t => rfl⟩
  case Aarch64Ldst128AbsLo12Nc =>
    exact ⟨true, fun m => write_u32 m (body + off)
      (((dfn body (target_func_address ⟨RelocationKind.Aarch64Ldst128AbsLo12Nc, tgt, off, dfn⟩ fns secs fp lt ltl) % 18446744073709551616 % 4294967296 &&& 4095) >>> 4) <<< 10 |||
        (read_u32 m (body + off) &&& 4290774015)), id,
      byte_affine_rmw_comm32 _ _ _, fun mem t => rfl⟩
  case Aarch64Ldst64AbsLo12Nc =>
    exact ⟨true, fun m => write_u32 m (body + off)
      (((dfn body (target_func_address ⟨RelocationKind.Aarch64Ldst64AbsLo12Nc, tgt, off, dfn⟩ fns secs fp lt ltl) % 18446744073709551616 % 4294967296 &&& 4095) >>> 3) <<< 10 |||
        (read_u32 m (body + off) &&& 4290774015)), id,
      byte_affine_rmw_comm32 _ _ _, fun mem t => rfl⟩
  case Aarch64AddAbsLo12Nc =>
    exact ⟨true, fun m => write_u32 m (body + off)
      ((read_u32 m (body + off) &&& (4294967295 ^^^ 4095 <<< 10)) |||
        (u32_of_int (i64_of_u64 (dfn body (target_func_address ⟨RelocationKind.Aarch64AddAbsLo12Nc, tgt, off, dfn⟩ fns secs fp lt ltl) % 18446744073709551616)) &&& 4095) <<< 10), id,
      byte_affine_write_u32_rmw _ _ _, fun mem t => rfl⟩
  case Arm64Call =>
    by_cases hcond : (i64_of_u64 (dfn body (target_func_address ⟨RelocationKind.Arm64Call, tgt, off, dfn⟩ fns secs fp lt ltl) % 18446744073709551616)).natAbs ≥ 268435456
    · refine ⟨false, fun m => m, id, byte_affine_id, fun mem t => ?_⟩
      simp only [apply_relocation, for_address]
      rw [if_pos hcond]
      rfl
    · refine ⟨true, fun m => write_u32 m (body + off)
        ((dfn body (target_func_address ⟨RelocationKind.Arm64Call, tgt, off, dfn⟩ fns secs fp lt ltl) % 18446744073709551616 / 4 % 4294967296 &&& 67108863) |||
          (read_u32 m (body + off) &&& 4227858432)), id,
        byte_affine_rmw_comm32 _ _ _, fun mem t => ?_⟩
      simp only [apply_relocation, for_address]
      rw [if_neg hcond]
      rfl
  case Aarch64AdrPrelPgHi21 =>
    by_cases hcond : -(4294967296 : Int) ≤ i64_of_u64 (dfn body (target_func_address ⟨RelocationKind.Aarch64AdrPrelPgHi21, tgt, off, dfn⟩ fns secs fp lt ltl) % 18446744073709551616) ∧
        i64_of_u64 (dfn body (target_func_address ⟨RelocationKind.Aarch64AdrPrelPgHi21, tgt, off, dfn⟩ fns secs fp lt ltl) % 18446744073709551616) < 4294967296
    · refine ⟨true, fun m => write_u32 m (body + off)
        (((read_u32 m (body + off) &&&
            (4294967295 ^^^ (524287 <<< 5 ||| 3 <<< 29))) |||
          (u32_of_int (int_asr (i64_of_u64 (dfn body (target_func_address ⟨RelocationKind.Aarch64AdrPrelPgHi21, tgt, off, dfn⟩ fns secs fp lt ltl) % 18446744073709551616)) 12) &&& 3) <<< 29) |||
          (u32_of_int (int_asr (i64_of_u64 (dfn body (target_func_address ⟨RelocationKind.Aarch64AdrPrelPgHi21, tgt, off, dfn⟩ fns secs fp lt ltl) % 18446744073709551616)) 12) >>> 2 &&& 524287) <<< 5), id,
        byte_affine_rmw_or2_32 _ _ _ _, fun mem t => ?_⟩
      simp only [apply_relocation, for_address]
      rw [if_pos hcond]
      rfl
    · refine ⟨false, fun m => m, id, byte_affine_id, fun mem t => ?_⟩
      simp only [apply_relocation, for_address]
      rw [if_neg hcond]
      rfl
  case Aarch64AdrPrelLo21 =>
    by_cases hcond : -(1048576 : Int) ≤ i64_of_u64 (dfn body (target_func_address ⟨RelocationKind.Aarch64AdrPrelLo21, tgt, off, dfn⟩ fns secs fp lt ltl) % 18446744073709551616) ∧
        i64_of_u64 (dfn body (target_func_address ⟨RelocationKind.Aarch64AdrPrelLo21, tgt, off, dfn⟩ fns secs fp lt ltl) % 18446744073709551616) < 1048576
    · refine ⟨true, fun m => write_u32 m (body + off)
        (((read_u32 m (body + off) &&&
            (4294967295 ^^^ (524287 <<< 5 ||| 3 <<< 29))) |||
          (u32_of_int (i64_of_u64 (dfn body (target_func_address ⟨RelocationKind.Aarch64AdrPrelLo21, tgt, off, dfn⟩ fns secs fp lt ltl) % 18446744073709551616)) &&& 3) <<< 29) |||
          (u32_of_int (i64_of_u64 (dfn body (target_func_address ⟨RelocationKind.Aarch64AdrPrelLo21, tgt, off, dfn⟩ fns secs fp lt ltl) % 18446744073709551616)) >>> 2 &&& 524287) <<< 5), id,
        byte_affine_rmw_or2_32 _ _ _ _, fun mem t => ?_⟩
      simp only [apply_relocation, for_address]
      rw [if_pos hcond]
      rfl
    · refine ⟨false, fun m => m, id, byte_affine_id, fun mem t => ?_⟩
      simp only [apply_relocation, for_address]
      rw [if_neg hcond]
      rfl
  case Unsupported =>
    exact ⟨false, fun m => m, id, byte_affine_id, fun mem t => rfl⟩

/-- A tagged record list free of `RiscvPCRelLo12I` acts as one success flag,
one byte-affine memory transformation and one table transformation. -/
theorem run_tagged_affine (fns secs fp : Nat → Nat) (lt ltl : Nat)
    (L : List (Nat × Relocation))
    (hL : ∀ pr ∈ L, (pr : Nat × Relocation).2.kind ≠
      RelocationKind.RiscvPCRelLo12I) :
    ∃ (ok : Bool) (F : Mem → Mem) (T : List (Nat × Nat) → List (Nat × Nat)),
      byte_affine F ∧
      ∀ mem t, run_tagged fns secs fp lt ltl L ⟨mem, t⟩ =
        if ok then some ⟨F mem, T t⟩ else none := by
  induction L with
  | nil => exact ⟨true, fun m => m, id, byte_affine_id, fun mem t => rfl⟩
  | cons pr rest ih =>
      rcases pr with ⟨b, r⟩
      obtain ⟨ok1, F1, T1, haff1, heq1⟩ :=
        apply_relocation_affine b r fns secs fp lt ltl
          (hL (b, r) (List.mem_cons_self _ _))
      obtain ⟨ok2, F2, T2, haff2, heq2⟩ :=
        ih (fun q hq => hL q (List.mem_cons_of_mem _ hq))
      cases ok1 with
      | false =>
          refine ⟨false, fun m => m, id, byte_affine_id, fun mem t => ?_⟩
          simp only [run_tagged]
          rw [heq1 mem t]
          rfl
      | true =>
          refine ⟨ok2, fun m => F2 (F1 m), fun t => T2 (T1 t),
            byte_affine_comp haff1 haff2, fun mem t => ?_⟩
          simp only [run_tagged]
          rw [heq1 mem t]
          exact heq2 (F1 mem) (T1 t)

theorem flatten_no_lo12 (bases : Nat → Nat)
    (s : List (Nat × List Relocation)) (hs : stream_no_lo12 s) :
    ∀ pr ∈ flatten_stream bases s,
      (pr : Nat × Relocation).2.kind ≠ RelocationKind.RiscvPCRelLo12I := by
  induction s with
  | nil =>
      intro pr hpr
      simp [flatten_stream] at hpr
  | cons q rest ih =>
      rcases q with ⟨i, rs⟩
      intro pr hpr
      simp only [flatten_stream, List.mem_append, List.mem_map] at hpr
      rcases hpr with ⟨r, hr, hpr⟩ | hpr
      · subst hpr
        exact hs (i, rs) (List.mem_cons_self _ _) r hr
      · exact ih (fun q hq => hs q (List.mem_cons_of_mem _ hq)) pr hpr

/-- C8: on a record stream with no `RiscvPCRelLo12I` record, `link_module`
is idempotent: running it a second time with the same arguments on the
memory produced by the first run succeeds and changes no byte. -/
theorem link_module_idempotent (fns : Nat → Nat)
    (frs : List (Nat × List Relocation)) (secs : Nat → Nat)
    (srs : List (Nat × List Relocation)) (fp : Nat → Nat) (lt ltl : Nat)
    (mem : Mem) (hs : stream_no_lo12 srs) (hf : stream_no_lo12 frs)
    (st1 st2 : LinkState)
    (h1 : link_module fns frs secs srs fp lt ltl mem = some st1)
    (h2 : link_module fns frs secs srs fp lt ltl st1.mem = some st2) :
    ∀ p, st2.mem p = st1.mem p := by
  have hrun : ∀ m0 : Mem, link_module fns frs secs srs fp lt ltl m0 =
      run_tagged fns secs fp lt ltl
        (flatten_stream secs srs ++ flatten_stream fns frs) ⟨m0, []⟩ := by
    intro m0
    rw [run_tagged_append]
    unfold link_module
    simp only [link_stream_eq_run_tagged]
  have hL : ∀ pr ∈ flatten_stream secs srs ++ flatten_stream fns frs,
      (pr : Nat × Relocation).2.kind ≠ RelocationKind.RiscvPCRelLo12I := by
    intro pr hpr
    rcases List.mem_append.mp hpr with hin | hin
    · exact flatten_no_lo12 secs srs hs pr hin
    · exact flatten_no_lo12 fns frs hf pr hin
  obtain ⟨ok, F, T, haff, heq⟩ := run_tagged_affine fns secs fp lt ltl _ hL
  rw [hrun mem, heq mem []] at h1
  rw [hrun st1.mem, heq st1.mem []] at h2
  cases ok with
  | false => simp at h1
  | true =>
      simp only [if_true, Option.some.injEq] at h1 h2
      subst h1
      subst h2
      intro p
      exact byte_affine_idem haff mem p

theorem link_module_idempotent_witness :
    (((link_module (fun _ => 256) [(0, [⟨RelocationKind.Abs8,
        RelocationTarget.LocalFunc 0, 0, fun _ t => t⟩])] (fun _ => 0) []
        (fun _ => 0) 0 0
        (((link_module (fun _ => 256) [(0, [⟨RelocationKind.Abs8,
          RelocationTarget.LocalFunc 0, 0, fun _ t => t⟩])] (fun _ => 0) []
          (fun _ => 0) 0 0 (fun _ => 165)).getD
          ⟨fun _ => 165, []⟩).mem)).getD ⟨fun _ => 165, []⟩).mem) 3 =
    (((link_module (fun _ => 256) [(0, [⟨RelocationKind.Abs8,
        RelocationTarget.LocalFunc 0, 0, fun _ t => t⟩])] (fun _ => 0) []
        (fun _ => 0) 0 0 (fun _ => 165)).getD ⟨fun _ => 165, []⟩).mem) 3 :=
  link_module_idempotent (fun _ => 256)
    [(0, [⟨RelocationKind.Abs8, RelocationTarget.LocalFunc 0, 0,
      fun _ t => t⟩])] (fun _ => 0) [] (fun _ => 0) 0 0 (fun _ => 165)
    (by intro pr hpr; simp at hpr)
    (by
      intro pr hpr r hr
      simp at hpr
      subst hpr
      simp at hr
      subst hr
      decide)
    ((link_module (fun _ => 256) [(0, [⟨RelocationKind.Abs8,
      RelocationTarget.LocalFunc 0, 0, fun _ t => t⟩])] (fun _ => 0) []
      (fun _ => 0) 0 0 (fun _ => 165)).getD ⟨fun _ => 165, []⟩)
    ((link_module (fun _ => 256) [(0, [⟨RelocationKind.Abs8,
      RelocationTarget.LocalFunc 0, 0, fun _ t => t⟩])] (fun _ => 0) []
      (fun _ => 0) 0 0
      (((link_module (fun _ => 256) [(0, [⟨RelocationKind.Abs8,
        RelocationTarget.LocalFunc 0, 0, fun _ t => t⟩])] (fun _ => 0) []
        (fun _ => 0) 0 0 (fun _ => 165)).getD
        ⟨fun _ => 165, []⟩).mem)).getD ⟨fun _ => 165, []⟩)
    rfl rfl 3

end Wasmer
